import Mathlib

/-!
# BentoStack — verification of the scoring engine, report builder, share codec
# and URL canonicalizer against the repository sources.

Shallow embedding of the TypeScript sources:
  * `src/lib/graph/graph-utils.ts`      — adjacency + BFS connected component
  * `src/lib/vibe/vibe-engine.svelte.ts`— VibeEngine (scoreEdge / scoreNode /
                                          globalVibe / auditRipple / mutations)
  * `src/lib/vibe/vibe-rules.ts`        — DEFAULT_VIBE_RULES
  * `src/lib/blueprint/builders.ts`     — buildManifest / buildReportData
  * `src/lib/vibe/suggest.ts`           — generateCollisionSuggestions
  * shareable codec (serializeGraph / deserializeGraph)
  * evidence URL canonicalizer (canonicalizeUrl)

JavaScript `Map` / plain-object records are modelled as association lists
(first-match lookup, insertion order preserved, set-or-append update),
numbers as `Int` (all score arithmetic is integral; `Math.round` is only
non-trivial at the single float division in `globalVibe`, modelled by
`jsRound`), and locale string comparison (`localeCompare`) as code-point
comparison.
-/

namespace BentoStack

/-- Registry entry, from `src/lib/registry/schema.ts` (`Library`). -/
structure Library where
  id : String
  name : String
  category : String
  vibe_score : Int
  best_with : List String
  friction_with : List String
  npm_install : String
  deriving DecidableEq, Repr

/-- `FlowNode.data` from `src/lib/graph/graph-types.ts`. -/
structure NodeData where
  toolId : Option String
  label : Option String
  category : Option String
  deriving DecidableEq, Repr

/-- 2-D position; coordinates opaque to the core, modelled as integers. -/
structure Pos where
  x : Int
  y : Int
  deriving DecidableEq, Repr

/-- `FlowNode` from `src/lib/graph/graph-types.ts`. -/
structure FlowNode where
  id : String
  type : String
  position : Pos
  data : NodeData
  deriving DecidableEq, Repr

/-- `FlowEdge` from `src/lib/graph/graph-types.ts` (UI-only `style` omitted). -/
structure FlowEdge where
  id : String
  source : String
  target : String
  type : Option String
  deriving DecidableEq, Repr

/-- Edge status from `graph-types.ts` (`VibeEdge.status`). -/
inductive EdgeStatus where
  | NATIVE
  | COLLISION
  | NEUTRAL
  deriving DecidableEq, Repr

/-- `VibeEdge` from `graph-types.ts`. -/
structure VibeEdge where
  status : EdgeStatus
  reason : String
  deriving DecidableEq, Repr

/-- Node status from `graph-types.ts` (`VibeNode.status`). -/
inductive NodeStatus where
  | GIGA
  | SOLID
  | SUS
  | REKT
  | BROKEN
  deriving DecidableEq, Repr

/-- `VibeNode` from `graph-types.ts`. -/
structure VibeNode where
  score : Int
  status : NodeStatus
  notes : List String
  deriving DecidableEq, Repr

/-- `VibeRules` from `src/lib/vibe/vibe-rules.ts`. -/
structure VibeRules where
  bestBonus : Int
  frictionPenalty : Int
  unknownPenalty : Int
  deriving DecidableEq, Repr

/-- `DEFAULT_VIBE_RULES` from `src/lib/vibe/vibe-rules.ts`. -/
def DEFAULT_VIBE_RULES : VibeRules :=
  { bestBonus := 12, frictionPenalty := 35, unknownPenalty := 3 }

/-! ## Association-list maps (model of JS `Map` / plain-object records) -/

/-- First-match lookup in an association list (JS `map.get` / `record[key]`). -/
def lookupA {α : Type} (m : List (String × α)) (k : String) : Option α :=
  (m.find? (fun kv => kv.1 == k)).map (·.2)

/-- Set a key: replace the first binding in place, or append a new one.
Models `record[key] = value` (insertion order preserved). -/
def setA {α : Type} : List (String × α) → String → α → List (String × α)
  | [], k, v => [(k, v)]
  | kv :: rest, k, v => if kv.1 == k then (k, v) :: rest else kv :: setA rest k v

/-! ## Graph utilities, from `src/lib/graph/graph-utils.ts` -/

/-- Ensure a key is present in the adjacency map (`if (!adj.has(k)) adj.set(k, new Set())`). -/
def adjEnsure (adj : List (String × List String)) (k : String) :
    List (String × List String) :=
  if (adj.find? (fun kv => kv.1 == k)).isSome then adj else adj ++ [(k, [])]

/-- Add a neighbour to a key's set (`adj.get(k)!.add(nb)`; JS `Set` keeps
insertion order and ignores duplicates). -/
def adjAddNb (adj : List (String × List String)) (k nb : String) :
    List (String × List String) :=
  adj.map (fun kv =>
    if kv.1 == k then (kv.1, if nb ∈ kv.2 then kv.2 else kv.2 ++ [nb]) else kv)

/-- `buildAdjacency` from `graph-utils.ts`: undirected adjacency map. -/
def buildAdjacency (edges : List FlowEdge) : List (String × List String) :=
  edges.foldl
    (fun adj e =>
      adjAddNb (adjAddNb (adjEnsure (adjEnsure adj e.source) e.target)
        e.source e.target) e.target e.source)
    []

/-- One BFS step body: fold the neighbour set into (seen, queue), adding
only unseen nodes (`if (!seen.has(nb)) { seen.add(nb); q.push(nb); }`). -/
def bfsPush (p : List String × List String) (nb : String) :
    List String × List String :=
  if nb ∈ p.1 then p else (p.1 ++ [nb], p.2 ++ [nb])

/-- BFS work loop of `connectedComponent`, fuelled.  Every node is enqueued
at most once (the `seen` guard), and each dequeued node's neighbour list is
consumed at most once, so `seeds.length + Σ neighbour-list lengths + 1`
dequeues can never be exceeded: the fuel below never reaches zero before
the queue empties, and the fuelled loop equals the source's `while` loop. -/
def bfsLoop (adj : List (String × List String)) :
    List String → List String → Nat → List String
  | seen, _, 0 => seen
  | seen, [], _ + 1 => seen
  | seen, cur :: rest, fuel + 1 =>
    match lookupA adj cur with
    | none => bfsLoop adj seen rest fuel
    | some nbs =>
      let p := nbs.foldl bfsPush (seen, rest)
      bfsLoop adj p.1 p.2 fuel

/-- `connectedComponent` from `graph-utils.ts`: BFS over the adjacency map
from a seed set; returns the set of reached node ids (insertion order). -/
def connectedComponent (adj : List (String × List String)) (seeds : List String) :
    List String :=
  let start := seeds.foldl bfsPush ([], [])
  bfsLoop adj start.1 start.2
    (seeds.length + (adj.map (fun kv => kv.2.length)).sum + 1)

/-! ## The scoring engine, from `src/lib/vibe/vibe-engine.svelte.ts` -/

/-- Engine state: registry and rules (read-only after construction), the raw
graph, and the two derived score maps (`nodeVibes`, `edgeVibes`). -/
structure EngineState where
  registry : List Library
  rules : VibeRules
  nodes : List FlowNode
  edges : List FlowEdge
  nodeVibes : List (String × VibeNode)
  edgeVibes : List (String × VibeEdge)
  deriving DecidableEq, Repr

/-- `toMap` from the engine: `Map.set` per library, so a later duplicate id
overwrites an earlier one; lookup therefore returns the last match. -/
def byIdGet (libs : List Library) (id : String) : Option Library :=
  libs.foldl (fun acc lib => if lib.id == id then some lib else acc) none

/-- JS truthiness of an optional string (`aTool ? ... : undefined`):
`undefined` and the empty string are falsy. -/
def truthyStr (o : Option String) : Option String :=
  o.bind (fun t => if t == "" then none else some t)

/-- The tool id selected on a node (`this.nodes.find(n => n.id === a)?.data?.toolId`). -/
def nodeToolId (s : EngineState) (nid : String) : Option String :=
  (s.nodes.find? (fun n => n.id == nid)).bind (fun n => n.data.toolId)

/-- The registry entry a node's selection resolves to
(`aTool ? this.byId.get(aTool) : undefined`). -/
def nodeLib (s : EngineState) (nid : String) : Option Library :=
  (truthyStr (nodeToolId s nid)).bind (byIdGet s.registry)

/-- `clamp01_100` from the engine.  `Math.round` is the identity on the
integer scores this is applied to. -/
def clamp01_100 (n : Int) : Int :=
  max 0 (min 100 n)

/-- `VibeEngine.scoreEdge`. -/
def scoreEdge (s : EngineState) (a b : String) : VibeEdge :=
  match nodeLib s a, nodeLib s b with
  | some aLib, some bLib =>
    if aLib.friction_with.contains bLib.id || bLib.friction_with.contains aLib.id then
      { status := .COLLISION, reason := aLib.name ++ " friction with " ++ bLib.name }
    else if aLib.best_with.contains bLib.id || bLib.best_with.contains aLib.id then
      { status := .NATIVE, reason := aLib.name ++ " vibes with " ++ bLib.name }
    else
      { status := .NEUTRAL, reason := "No explicit relationship." }
  | _, _ => { status := .NEUTRAL, reason := "Missing tool selection." }

/-- Per-neighbour accumulator of `scoreNode`: running score, unknown
counter, collected notes. -/
structure NodeAcc where
  score : Int
  unknown : Int
  notes : List String
  deriving DecidableEq, Repr

/-- Body of the `for (const nb of neighbors)` loop in `scoreNode`.  Note the
friction and affinity checks consult only the scored node's own tool
(`lib.friction_with` / `lib.best_with`), not the neighbour's declarations. -/
def scoreNodeStep (s : EngineState) (lib : Library) (acc : NodeAcc) (nb : String) :
    NodeAcc :=
  match nodeLib s nb with
  | none => { acc with unknown := acc.unknown + 1 }
  | some nbLib =>
    if lib.friction_with.contains nbLib.id then
      { acc with
        score := acc.score - s.rules.frictionPenalty,
        notes := acc.notes ++ ["Friction: " ++ lib.name ++ " ↔ " ++ nbLib.name] }
    else if lib.best_with.contains nbLib.id then
      { acc with score := acc.score + s.rules.bestBonus }
    else
      { acc with unknown := acc.unknown + 1 }

/-- Neighbour classification of the `scoreNode` loop: the scored node's own
tool declares friction toward the neighbour's tool. -/
def nbFric (s : EngineState) (lib : Library) (nb : String) : Bool :=
  match nodeLib s nb with
  | some nbLib => lib.friction_with.contains nbLib.id
  | none => false

/-- Neighbour classification: no friction, and the node's own tool declares
affinity toward the neighbour's tool. -/
def nbBest (s : EngineState) (lib : Library) (nb : String) : Bool :=
  match nodeLib s nb with
  | some nbLib =>
    !lib.friction_with.contains nbLib.id && lib.best_with.contains nbLib.id
  | none => false

/-- Neighbour classification: unresolvable tool, or no declared relation
from the node's own tool. -/
def nbUnknown (s : EngineState) (lib : Library) (nb : String) : Bool :=
  match nodeLib s nb with
  | some nbLib =>
    !lib.friction_with.contains nbLib.id && !lib.best_with.contains nbLib.id
  | none => true

/-- The note the `scoreNode` loop records for a friction neighbour. -/
def nbNote (s : EngineState) (lib : Library) (nb : String) : Option String :=
  match nodeLib s nb with
  | some nbLib =>
    if lib.friction_with.contains nbLib.id then
      some ("Friction: " ++ lib.name ++ " ↔ " ++ nbLib.name)
    else none
  | none => none

/-- Four-tier classification at thresholds 80 / 60 / 40 from `scoreNode`. -/
def statusOfScore (clipped : Int) : NodeStatus :=
  if clipped ≥ 80 then .GIGA
  else if clipped ≥ 60 then .SOLID
  else if clipped ≥ 40 then .SUS
  else .REKT

/-- `VibeEngine.scoreNode`. -/
def scoreNode (s : EngineState) (nodeId : String)
    (adjacency : List (String × List String)) : VibeNode :=
  match (s.nodes.find? (fun n => n.id == nodeId)), nodeLib s nodeId with
  | some _, some lib =>
    let neighbors := (lookupA adjacency nodeId).getD []
    let acc := neighbors.foldl (scoreNodeStep s lib)
      { score := lib.vibe_score, unknown := 0, notes := [] }
    let score := acc.score - acc.unknown * s.rules.unknownPenalty
    let clipped := clamp01_100 score
    { score := clipped, status := statusOfScore clipped, notes := acc.notes }
  | _, _ => { score := 0, status := .BROKEN, notes := ["Select a tool to compute vibe."] }

/-- JS `Math.round(num / den)` for a positive denominator:
`floor(num/den + 1/2)` (JS rounds halves toward +∞). -/
def jsRound (num den : Int) : Int :=
  Int.fdiv (2 * num + den) (2 * den)

/-- `VibeEngine.globalVibe` (`$derived`): 100 when `nodeVibes` is empty,
otherwise the rounded, clamped mean over ALL recorded node scores. -/
def globalVibe (s : EngineState) : Int :=
  if s.nodeVibes = [] then 100
  else
    let sum := (s.nodeVibes.map (fun kv => kv.2.score)).sum
    max 0 (min 100 (jsRound sum s.nodeVibes.length))

/-- `VibeEngine.auditRipple`: recompute the connected component of the seed
ids on the current graph; overwrite edge vibes for edges touching the
component and node vibes for component members, leaving every other
recorded entry as it was. -/
def auditRipple (s : EngineState) (seedIds : List String) : EngineState :=
  let adjacency := buildAdjacency s.edges
  let component := connectedComponent adjacency seedIds
  let nextEdgeVibes := s.edges.foldl
    (fun m e =>
      if e.source ∈ component ∨ e.target ∈ component then
        setA m e.id (scoreEdge s e.source e.target)
      else m)
    s.edgeVibes
  let nextNodeVibes := component.foldl
    (fun m id => setA m id (scoreNode s id adjacency))
    s.nodeVibes
  { s with edgeVibes := nextEdgeVibes, nodeVibes := nextNodeVibes }

/-- `VibeEngine.auditAll`. -/
def auditAll (s : EngineState) : EngineState :=
  auditRipple s (s.nodes.map (fun n => n.id))

/-- `VibeEngine.init`. -/
def initEngine (s : EngineState) (seedNodes : List FlowNode)
    (seedEdges : List FlowEdge) : EngineState :=
  auditAll { s with nodes := seedNodes, edges := seedEdges }

/-- `VibeEngine.updateTool`. -/
def updateTool (s : EngineState) (nodeId toolId : String) : EngineState :=
  let s' := { s with
    nodes := s.nodes.map (fun n =>
      if n.id == nodeId then { n with data := { n.data with toolId := some toolId } }
      else n) }
  auditRipple s' [nodeId]

/-- `VibeEngine.connectEdge`. -/
def connectEdge (s : EngineState) (edge : FlowEdge) : EngineState :=
  let s' := { s with edges := s.edges ++ [{ edge with type := some "stack" }] }
  auditRipple s' [edge.source, edge.target]

/-- `VibeEngine.removeEdge`: look the edge up first, filter it out, then
ripple from its endpoints (or re-audit everything when it was absent). -/
def removeEdge (s : EngineState) (edgeId : String) : EngineState :=
  match s.edges.find? (fun e => e.id == edgeId) with
  | some removed =>
    auditRipple { s with edges := s.edges.filter (fun e => e.id != edgeId) }
      [removed.source, removed.target]
  | none =>
    auditAll { s with edges := s.edges.filter (fun e => e.id != edgeId) }

/-! ## Snapshot and evidence types
(`src/lib/vibe/snapshot.ts`, `src/lib/evidence/types.ts`) -/

/-- `VibeSnapshot` from `snapshot.ts`. -/
structure VibeSnapshot where
  nodes : List FlowNode
  edges : List FlowEdge
  nodeVibes : List (String × VibeNode)
  edgeVibes : List (String × VibeEdge)
  globalVibe : Int
  deriving DecidableEq, Repr

/-- Evidence pack kind (`'risk' | 'fix' | 'positive'`). -/
inductive PackKind where
  | risk
  | fix
  | positive
  deriving DecidableEq, Repr

/-- `EvidenceItem` from `evidence/types.ts` (source type kept as a string). -/
structure EvidenceItem where
  url : String
  canonicalUrl : Option String
  sourceType : String
  excerpt : String
  note : Option String
  retrievedDate : Option String
  deriving DecidableEq, Repr

/-- `EvidencePack` from `evidence/types.ts` (severity/confidence kept as
strings). -/
structure EvidencePack where
  ruleId : String
  kind : PackKind
  claim : String
  scope : String
  severity : String
  confidence : String
  tags : List String
  evidence : List EvidenceItem
  counterEvidence : List EvidenceItem
  fixRuleIds : Option (List String)
  needsVerification : Bool
  deriving DecidableEq, Repr

/-- `EvidenceIndex`: a JS record keyed by rule id, modelled as an
association list in `Object.entries` order. -/
def EvidenceIndex := List (String × EvidencePack)

/-! ## Report types, from `src/lib/blueprint/types.ts` -/

/-- Finding type (`'collision' | 'risk' | 'fix' | 'positive' | 'low-score'`). -/
inductive FindingType where
  | collision
  | risk
  | fix
  | positive
  | lowScore
  deriving DecidableEq, Repr

/-- `ReportFinding`. -/
structure ReportFinding where
  type : FindingType
  severity : String
  what : String
  why : String
  evidence : String
  suggestedFix : String
  ruleId : Option String
  evidencePack : Option EvidencePack
  deriving DecidableEq, Repr

/-- `ManifestTool`. -/
structure ManifestTool where
  id : String
  name : String
  category : String
  npm : String
  deriving DecidableEq, Repr

/-- `ManifestNode`. -/
structure ManifestNode where
  id : String
  category : String
  toolId : String
  deriving DecidableEq, Repr

/-- `ManifestEdge` (status is `undefined` for an unscored edge). -/
structure ManifestEdge where
  id : String
  source : String
  target : String
  status : Option EdgeStatus
  weight : Int
  deriving DecidableEq, Repr

/-- `Manifest`. -/
structure Manifest where
  version : Int
  generatedAt : String
  tools : List ManifestTool
  nodes : List ManifestNode
  edges : List ManifestEdge
  globalVibe : Int
  deriving DecidableEq, Repr

/-- Alternative-tool entry of a `ReportSwap`. -/
structure SwapAlternative where
  toolId : String
  toolName : String
  reason : String
  affectsNodeId : String
  deriving DecidableEq, Repr

/-- `ReportSwap`. -/
structure ReportSwap where
  edgeId : String
  sourceTool : String
  targetTool : String
  alternatives : List SwapAlternative
  deriving DecidableEq, Repr

/-- `ReportData`. -/
structure ReportData where
  timestamp : String
  globalVibe : Int
  tier : String
  findings : List ReportFinding
  swaps : List ReportSwap
  manifest : Manifest
  deriving DecidableEq, Repr

/-! ## Builders, from `src/lib/blueprint/builders.ts` and
`src/lib/vibe/suggest.ts` -/

/-- `a.localeCompare(b)` modelled as code-point comparison (-1/0/1). -/
def localeCmp (a b : String) : Int :=
  match compare a b with
  | .lt => -1
  | .eq => 0
  | .gt => 1

/-- JS `Array.prototype.indexOf` (-1 when absent). -/
def jsIndexOf (l : List String) (x : String) : Int :=
  match l.findIdx? (fun y => y == x) with
  | some i => (i : Int)
  | none => -1

/-- JS template interpolation of a possibly-`undefined` string. -/
def jsStr (o : Option String) : String :=
  o.getD "undefined"

/-- The fixed category order used by the builders. -/
def categoryOrder : List String :=
  ["Frontend", "Backend", "Auth", "ORM", "Database"]

/-- Stable sort by a JS comparator (`cmp a b ≤ 0` ⇔ keep `a` before `b`);
JS `Array.prototype.sort` is stable, as is `List.mergeSort`. -/
def jsSortBy {α : Type} (cmp : α → α → Int) (l : List α) : List α :=
  l.mergeSort (fun a b => cmp a b ≤ 0)

/-- Tool comparator of `buildManifest` (category order, then name). -/
def manifestToolCmp (a b : ManifestTool) : Int :=
  let orderA := jsIndexOf categoryOrder a.category
  let orderB := jsIndexOf categoryOrder b.category
  if orderA ≠ orderB then orderA - orderB else localeCmp a.name b.name

/-- Node comparator of `buildManifest` (category order when both known,
then id). -/
def manifestNodeCmp (a b : ManifestNode) : Int :=
  let orderA := jsIndexOf categoryOrder a.category
  let orderB := jsIndexOf categoryOrder b.category
  if orderA ≠ -1 ∧ orderB ≠ -1 ∧ orderA ≠ orderB then orderA - orderB
  else localeCmp a.id b.id

/-- Edge comparator of `buildManifest` (source, target, id). -/
def manifestEdgeCmp (a b : ManifestEdge) : Int :=
  if a.source ≠ b.source then localeCmp a.source b.source
  else if a.target ≠ b.target then localeCmp a.target b.target
  else localeCmp a.id b.id

/-- The set of tool ids selected in the graph, in first-seen order
(`new Set(nodes.map(n => n.data.toolId).filter(Boolean))`). -/
def presentToolIds (nodes : List FlowNode) : List String :=
  nodes.foldl
    (fun acc n =>
      match truthyStr n.data.toolId with
      | some t => if t ∈ acc then acc else acc ++ [t]
      | none => acc)
    []

/-- `buildManifest` from `builders.ts` (timestamp always supplied, matching
the deterministic path). -/
def buildManifest (snapshot : VibeSnapshot) (registry : List Library)
    (timestamp : String) : Manifest :=
  let tools := jsSortBy manifestToolCmp
    ((presentToolIds snapshot.nodes).filterMap (fun id =>
      (byIdGet registry id).map (fun lib =>
        { id := lib.id, name := lib.name, category := lib.category,
          npm := lib.npm_install })))
  let nodes := jsSortBy manifestNodeCmp
    (snapshot.nodes.map (fun n =>
      { id := n.id, category := n.data.category.getD "",
        toolId := n.data.toolId.getD "" }))
  let edges := jsSortBy manifestEdgeCmp
    (snapshot.edges.map (fun e =>
      let vibe := lookupA snapshot.edgeVibes e.id
      { id := e.id, source := e.source, target := e.target,
        status := vibe.map (·.status),
        weight :=
          if vibe.map (·.status) = some .NATIVE then 1
          else if vibe.map (·.status) = some .COLLISION then -1
          else 0 }))
  { version := 1, generatedAt := timestamp, tools := tools, nodes := nodes,
    edges := edges, globalVibe := snapshot.globalVibe }

/-- Suggestion record from `suggest.ts`. -/
structure Suggestion where
  toolId : String
  toolName : String
  reason : String
  affectsNodeId : String
  category : String
  deriving DecidableEq, Repr

/-- Suggestion context from `suggest.ts`. -/
structure SuggestionContext where
  sourceNodeId : String
  sourceToolId : String
  sourceCategory : String
  targetNodeId : String
  targetToolId : String
  targetCategory : String
  registry : List Library
  deriving DecidableEq, Repr

/-- Candidate pass of `generateCollisionSuggestions` for one side. -/
def suggestSide (registry : List Library) (cat ownToolId otherToolId : String)
    (affects : String) (otherName : String) : List Suggestion :=
  registry.filterMap (fun lib =>
    if lib.category == cat && lib.id != ownToolId &&
        lib.best_with.contains otherToolId &&
        !lib.friction_with.contains otherToolId then
      some { toolId := lib.id, toolName := lib.name,
             reason := "Native support for " ++ otherName,
             affectsNodeId := affects, category := lib.category }
    else none)

/-- Sort comparator of `generateCollisionSuggestions`: native matches first,
then vibe score descending, then name. -/
def suggestionCmp (ctx : SuggestionContext) (a b : Suggestion) : Int :=
  let aLib := byIdGet ctx.registry a.toolId
  let bLib := byIdGet ctx.registry b.toolId
  let aIsNative :=
    (a.affectsNodeId == ctx.sourceNodeId &&
      (aLib.map (fun l => l.best_with.contains ctx.targetToolId)).getD false) ||
    (a.affectsNodeId == ctx.targetNodeId &&
      (aLib.map (fun l => l.best_with.contains ctx.sourceToolId)).getD false)
  let bIsNative :=
    (b.affectsNodeId == ctx.sourceNodeId &&
      (bLib.map (fun l => l.best_with.contains ctx.targetToolId)).getD false) ||
    (b.affectsNodeId == ctx.targetNodeId &&
      (bLib.map (fun l => l.best_with.contains ctx.sourceToolId)).getD false)
  if aIsNative && !bIsNative then -1
  else if !aIsNative && bIsNative then 1
  else
    let aScore := (aLib.map (·.vibe_score)).getD 50
    let bScore := (bLib.map (·.vibe_score)).getD 50
    if aScore ≠ bScore then bScore - aScore
    else localeCmp a.toolName b.toolName

/-- `generateCollisionSuggestions` from `suggest.ts`.  The `wouldResolve`
check tests friction in both directions; since a candidate already passed
`lib.best_with.includes(otherToolId)` and its own `friction_with` filter,
the remaining reverse check consults the *other* tool's declarations. -/
def generateCollisionSuggestions (ctx : SuggestionContext) : List Suggestion :=
  let targetLib := byIdGet ctx.registry ctx.targetToolId
  let sourceLib := byIdGet ctx.registry ctx.sourceToolId
  let fromSource := (suggestSide ctx.registry ctx.sourceCategory
      ctx.sourceToolId ctx.targetToolId ctx.sourceNodeId
      ((targetLib.map (·.name)).getD "target")).filter
    (fun sug =>
      !((targetLib.map (fun l => l.friction_with.contains sug.toolId)).getD false))
  let fromTarget := (suggestSide ctx.registry ctx.targetCategory
      ctx.targetToolId ctx.sourceToolId ctx.targetNodeId
      ((sourceLib.map (·.name)).getD "source")).filter
    (fun sug =>
      !((sourceLib.map (fun l => l.friction_with.contains sug.toolId)).getD false))
  (jsSortBy (suggestionCmp ctx) (fromSource ++ fromTarget)).take 6

/-- Hard-coded risk matching predicate of `buildReportData` (step 2). -/
def riskMatches (ruleId : String) (tools : List String) : Bool :=
  if ruleId == "prisma-orm-edge-incompatibility" then
    tools.contains "nextjs" && tools.contains "prisma"
  else if ruleId == "authjs-database-adapter-edge-failure" then
    tools.contains "authjs" && tools.contains "nextjs"
  else if ruleId == "drizzle-orm-nodejs-dependencies" then
    tools.contains "drizzle" && tools.contains "nextjs"
  else if ruleId == "native-db-drivers-tcp-failure" then
    (tools.contains "nextjs" && (tools.contains "postgres" || tools.contains "mysql")) ||
    (tools.contains "nextjs" && tools.contains "prisma")
  else if ruleId == "edge-runtime-response-timeout" then
    tools.contains "nextjs"
  else if ruleId == "next-edge-node-apis" then
    tools.contains "nextjs"
  else if ruleId == "vercel-serverless-connection-limits" then
    tools.contains "nextjs" || tools.contains "vercel"
  else false

/-- Hard-coded positive matching predicate of `buildReportData` (step 4). -/
def positiveMatches (ruleId : String) (tools : List String) : Bool :=
  if ruleId == "turso-libsql-edge-native" then tools.contains "turso"
  else if ruleId == "neon-serverless-edge-driver" then tools.contains "neon"
  else false

/-- `claim.substring(0, 80) + (claim.length > 80 ? '...' : '')`. -/
def truncate80 (s : String) : String :=
  (s.take 80) ++ (if s.length > 80 then "..." else "")

/-- Risk finding constructor (step 2 of `buildReportData`). -/
def mkRiskFinding (pack : EvidencePack) : ReportFinding :=
  { type := .risk, severity := pack.severity,
    what := truncate80 pack.claim, why := pack.claim,
    evidence :=
      if pack.needsVerification then "Ungrounded claim (needs verification)"
      else toString pack.evidence.length ++ " source(s)",
    suggestedFix :=
      match pack.fixRuleIds with
      | some l =>
        if l.length > 0 then "See recommended fixes: " ++ String.intercalate ", " l
        else "Review evidence and consider alternative approaches"
      | none => "Review evidence and consider alternative approaches",
    ruleId := some pack.ruleId, evidencePack := some pack }

/-- Fix finding constructor (step 3 of `buildReportData`). -/
def mkFixFinding (pack : EvidencePack) : ReportFinding :=
  { type := .fix, severity := "info",
    what := truncate80 pack.claim, why := pack.claim,
    evidence := toString pack.evidence.length ++ " source(s)",
    suggestedFix := pack.scope,
    ruleId := some pack.ruleId, evidencePack := some pack }

/-- Positive finding constructor (step 4 of `buildReportData`). -/
def mkPositiveFinding (pack : EvidencePack) : ReportFinding :=
  { type := .positive, severity := "info",
    what := truncate80 pack.claim, why := pack.claim,
    evidence := toString pack.evidence.length ++ " source(s)",
    suggestedFix := pack.scope,
    ruleId := some pack.ruleId, evidencePack := some pack }

/-- The rule ids of risk packs that fired against the present tools. -/
def firedRiskRuleIds (index : List (String × EvidencePack))
    (tools : List String) : List String :=
  (index.filter (fun kp => kp.2.kind == .risk && riskMatches kp.1 tools)).map (·.1)

/-- Fix gating test of step 3: some fired risk's `fixRuleIds` names this
fix's index key. -/
def fixIsReferenced (index : List (String × EvidencePack))
    (tools : List String) (key : String) : Bool :=
  (firedRiskRuleIds index tools).any (fun riskRuleId =>
    match lookupA index riskRuleId with
    | some riskPack => (riskPack.fixRuleIds.getD []).contains key
    | none => false)

/-- Comparator used to sort risk/fix/positive findings by rule id. -/
def findingRuleIdCmp (a b : ReportFinding) : Int :=
  localeCmp (a.ruleId.getD "") (b.ruleId.getD "")

/-- Collision finding for one collision edge (step 1 of `buildReportData`);
`none` when an endpoint node is missing (`continue`). -/
def mkCollisionFinding (snapshot : VibeSnapshot) (registry : List Library)
    (edge : FlowEdge) : Option ReportFinding :=
  match snapshot.nodes.find? (fun n => n.id == edge.source),
        snapshot.nodes.find? (fun n => n.id == edge.target) with
  | some sourceNode, some targetNode =>
    let vibe := lookupA snapshot.edgeVibes edge.id
    let sourceTool := byIdGet registry (sourceNode.data.toolId.getD "")
    let targetTool := byIdGet registry (targetNode.data.toolId.getD "")
    some { type := .collision, severity := "high",
           what := "Friction between " ++ jsStr sourceNode.data.label ++
             " and " ++ jsStr targetNode.data.label,
           why := (vibe.map (·.reason)).getD "Incompatible tools",
           evidence := ((sourceTool.map (·.name)).getD "?") ++ " ↔ " ++
             ((targetTool.map (·.name)).getD "?"),
           suggestedFix := "Consider swapping one of these tools for a compatible alternative (see Recommended Swaps below)",
           ruleId := none, evidencePack := none }
  | _, _ => none

/-- Low-score finding for one scored node (step 5); `none` when the node is
missing from the node list. -/
def mkLowScoreFinding (snapshot : VibeSnapshot) (registry : List Library)
    (iv : String × VibeNode) : Option ReportFinding :=
  match snapshot.nodes.find? (fun n => n.id == iv.1) with
  | some node =>
    let tool := byIdGet registry (node.data.toolId.getD "")
    let notes := String.intercalate "; " iv.2.notes
    some { type := .lowScore,
           severity := if iv.2.status == .REKT then "high" else "medium",
           what := "Low vibe score for " ++ jsStr node.data.label,
           why := if notes == "" then "Multiple friction points detected" else notes,
           evidence := "Score: " ++ toString iv.2.score ++ "/100, Tool: " ++
             ((tool.map (·.name)).getD "?"),
           suggestedFix := "Review connections and consider alternative tools",
           ruleId := none, evidencePack := none }
  | none => none

/-- Swap entry for one collision edge (`continue` on a missing node or a
falsy tool id). -/
def mkSwap (snapshot : VibeSnapshot) (registry : List Library)
    (edge : FlowEdge) : Option ReportSwap :=
  match snapshot.nodes.find? (fun n => n.id == edge.source),
        snapshot.nodes.find? (fun n => n.id == edge.target) with
  | some sourceNode, some targetNode =>
    match truthyStr sourceNode.data.toolId, truthyStr targetNode.data.toolId with
    | some sTool, some tTool =>
      let ctx : SuggestionContext :=
        { sourceNodeId := sourceNode.id, sourceToolId := sTool,
          sourceCategory := sourceNode.data.category.getD "",
          targetNodeId := targetNode.id, targetToolId := tTool,
          targetCategory := targetNode.data.category.getD "",
          registry := registry }
      let suggestions := generateCollisionSuggestions ctx
      some { edgeId := edge.id,
             sourceTool := ((byIdGet registry sTool).map (·.name)).getD sTool,
             targetTool := ((byIdGet registry tTool).map (·.name)).getD tTool,
             alternatives := suggestions.map (fun s =>
               { toolId := s.toolId, toolName := s.toolName, reason := s.reason,
                 affectsNodeId := s.affectsNodeId }) }
    | _, _ => none
  | _, _ => none

/-- `buildReportData` from `builders.ts` (timestamp always supplied). -/
def buildReportData (snapshot : VibeSnapshot) (registry : List Library)
    (timestamp : String) (evidenceIndex : Option (List (String × EvidencePack))) :
    ReportData :=
  let manifest := buildManifest snapshot registry timestamp
  let tier :=
    if snapshot.globalVibe ≥ 80 then "GIGA"
    else if snapshot.globalVibe ≥ 60 then "SOLID"
    else if snapshot.globalVibe ≥ 40 then "SUS"
    else "REKT"
  let collisionEdges := snapshot.edges.filter (fun e =>
    (lookupA snapshot.edgeVibes e.id).map (·.status) == some .COLLISION)
  let collisions := collisionEdges.filterMap (mkCollisionFinding snapshot registry)
  let tools := presentToolIds snapshot.nodes
  let risks :=
    match evidenceIndex with
    | some index =>
      (index.filter (fun kp => kp.2.kind == .risk && riskMatches kp.1 tools)).map
        (fun kp => mkRiskFinding kp.2)
    | none => []
  let fixes :=
    match evidenceIndex with
    | some index =>
      (index.filter (fun kp =>
        kp.2.kind == .fix && fixIsReferenced index tools kp.1)).map
        (fun kp => mkFixFinding kp.2)
    | none => []
  let positives :=
    match evidenceIndex with
    | some index =>
      (index.filter (fun kp =>
        kp.2.kind == .positive && positiveMatches kp.1 tools)).map
        (fun kp => mkPositiveFinding kp.2)
    | none => []
  let lowScores :=
    (jsSortBy (fun (a b : String × VibeNode) => a.2.score - b.2.score)
      (snapshot.nodeVibes.filter (fun iv =>
        iv.2.status == .REKT || iv.2.status == .SUS))).filterMap
      (mkLowScoreFinding snapshot registry)
  let findings := collisions ++ jsSortBy findingRuleIdCmp risks ++
    jsSortBy findingRuleIdCmp fixes ++ jsSortBy findingRuleIdCmp positives ++
    lowScores
  let swaps := collisionEdges.filterMap (mkSwap snapshot registry)
  { timestamp := timestamp, globalVibe := snapshot.globalVibe, tier := tier,
    findings := findings, swaps := swaps, manifest := manifest }

/-! ## Share codec (`serializeGraph` / `deserializeGraph`)

`JSON.stringify` / `JSON.parse` and LZ-string compression are external
libraries; they are modelled at their interface as a `JsonCodec` whose
round-trip behaviour is assumed pointwise where a theorem needs it.  The
repository's own logic — canonical ordering, size limits, payload
validation, error messages — is embedded concretely. -/

/-- A JSON value (`JSON.parse` output). -/
inductive JVal where
  | jnull
  | jbool (b : Bool)
  | jnum (n : Int)
  | jstr (s : String)
  | jarr (items : List JVal)
  | jobj (fields : List (String × JVal))

/-- Property access `j[k]` (`undefined` on non-objects / missing keys). -/
def JVal.getField : JVal → String → Option JVal
  | .jobj fields, k => lookupA fields k
  | _, _ => none

/-- The external JSON + LZ-string layer, at its interface.  `parse` returns
the thrown error message on failure; `decompress` returns `none` for the
`null` result of `decompressFromEncodedURIComponent`. -/
structure JsonCodec where
  stringify : JVal → String
  parse : String → Except String JVal
  compress : String → String
  decompress : String → Option String

/-- `MAX_NODES`. -/
def MAX_NODES : Nat := 100

/-- `MAX_EDGES`. -/
def MAX_EDGES : Nat := 300

/-- `MAX_ENCODED_LENGTH`. -/
def MAX_ENCODED_LENGTH : Nat := 5000

/-- `canonicalizeNodes`: sort by id (`localeCompare(·, 'en')` modelled as
code-point order; JS sort is stable, as is `mergeSort`). -/
def canonicalizeNodes (nodes : List FlowNode) : List FlowNode :=
  jsSortBy (fun a b => localeCmp a.id b.id) nodes

/-- `canonicalizeEdges`: sort by (source, target, id). -/
def canonicalizeEdges (edges : List FlowEdge) : List FlowEdge :=
  jsSortBy
    (fun a b =>
      if a.source ≠ b.source then localeCmp a.source b.source
      else if a.target ≠ b.target then localeCmp a.target b.target
      else localeCmp a.id b.id)
    edges

/-- `SharePayload`. -/
structure SharePayload where
  v : Int
  nodes : List FlowNode
  edges : List FlowEdge
  deriving DecidableEq, Repr

/-- The JSON object `JSON.stringify` produces for a node (`undefined`
optional fields are omitted). -/
def nodeToJson (n : FlowNode) : JVal :=
  .jobj [("id", .jstr n.id), ("type", .jstr n.type),
    ("position", .jobj [("x", .jnum n.position.x), ("y", .jnum n.position.y)]),
    ("data", .jobj
      ((match n.data.toolId with | some t => [("toolId", JVal.jstr t)] | none => []) ++
       (match n.data.label with | some l => [("label", JVal.jstr l)] | none => []) ++
       (match n.data.category with | some c => [("category", JVal.jstr c)] | none => [])))]

/-- The JSON object `JSON.stringify` produces for an edge. -/
def edgeToJson (e : FlowEdge) : JVal :=
  .jobj ([("id", JVal.jstr e.id), ("source", JVal.jstr e.source),
    ("target", JVal.jstr e.target)] ++
    (match e.type with | some t => [("type", JVal.jstr t)] | none => []))

/-- The JSON object of a `SharePayload`. -/
def payloadToJson (p : SharePayload) : JVal :=
  .jobj [("v", .jnum p.v),
    ("graph", .jobj [("nodes", .jarr (p.nodes.map nodeToJson)),
      ("edges", .jarr (p.edges.map edgeToJson))])]

/-- JS truthiness of a JSON value (`!payload`). -/
def JVal.truthy : JVal → Bool
  | .jnull => false
  | .jbool b => b
  | .jnum n => n ≠ 0
  | .jstr s => s ≠ ""
  | .jarr _ => true
  | .jobj _ => true

/-- `typeof x === 'object' && x !== null` (arrays included). -/
def JVal.isObjecty : JVal → Bool
  | .jobj _ => true
  | .jarr _ => true
  | _ => false

/-- A truthy string field (`!x.id || typeof x.id !== 'string'`). -/
def jsonStringField (j : JVal) (k : String) : Bool :=
  match j.getField k with
  | some (.jstr s) => s ≠ ""
  | _ => false

/-- `typeof x.position.x === 'number' && typeof x.position.y === 'number'`. -/
def jsonNumericXY (node : JVal) : Bool :=
  match (node.getField "position").bind (fun p => p.getField "x"),
        (node.getField "position").bind (fun p => p.getField "y") with
  | some (.jnum _), some (.jnum _) => true
  | _, _ => false

/-- Per-node structural checks of `validatePayload`, with the index in the
error message. -/
def validateNodesAt : List JVal → Nat → Option String
  | [], _ => none
  | node :: rest, i =>
    if !jsonStringField node "id" then
      some ("Invalid node at index " ++ toString i ++ ": missing or invalid id")
    else if !jsonStringField node "type" then
      some ("Invalid node at index " ++ toString i ++ ": missing or invalid type")
    else if !(((node.getField "position").map JVal.isObjecty).getD false &&
              ((node.getField "position").map JVal.truthy).getD false) then
      some ("Invalid node at index " ++ toString i ++ ": missing or invalid position")
    else if !jsonNumericXY node then
      some ("Invalid node at index " ++ toString i ++ ": position must have numeric x and y")
    else if !(((node.getField "data").map JVal.isObjecty).getD false &&
              ((node.getField "data").map JVal.truthy).getD false) then
      some ("Invalid node at index " ++ toString i ++ ": missing or invalid data")
    else validateNodesAt rest (i + 1)

/-- Per-edge structural checks of `validatePayload`. -/
def validateEdgesAt : List JVal → Nat → Option String
  | [], _ => none
  | edge :: rest, i =>
    if !jsonStringField edge "id" then
      some ("Invalid edge at index " ++ toString i ++ ": missing or invalid id")
    else if !jsonStringField edge "source" then
      some ("Invalid edge at index " ++ toString i ++ ": missing or invalid source")
    else if !jsonStringField edge "target" then
      some ("Invalid edge at index " ++ toString i ++ ": missing or invalid target")
    else validateEdgesAt rest (i + 1)

/-- `validatePayload` from the share codec: `none` when valid, else the
error message. -/
def validatePayload (payload : JVal) : Option String :=
  if !(payload.truthy && payload.isObjecty) then
    some "Payload must be an object"
  else if !(match payload.getField "v" with
            | some (.jnum n) => n == 1
            | _ => false) then
    some "Invalid or missing version field (expected v=1)"
  else
    match payload.getField "graph" with
    | some graph =>
      if !(graph.truthy && graph.isObjecty) then
        some "Missing or invalid graph field"
      else
        match graph.getField "nodes", graph.getField "edges" with
        | some (.jarr nodes), some (.jarr edges) =>
          if nodes.length > MAX_NODES then
            some ("Too many nodes (max " ++ toString MAX_NODES ++ ", got " ++
              toString nodes.length ++ ")")
          else if edges.length > MAX_EDGES then
            some ("Too many edges (max " ++ toString MAX_EDGES ++ ", got " ++
              toString edges.length ++ ")")
          else
            match validateNodesAt nodes 0 with
            | some err => some err
            | none => validateEdgesAt edges 0
        | some (.jarr _), _ => some "Edges must be an array"
        | _, _ => some "Nodes must be an array"
    | none => some "Missing or invalid graph field"

/-- Rebuild a `FlowNode` from its validated JSON (`payload as SharePayload`). -/
def nodeFromJson (j : JVal) : FlowNode :=
  { id := (match j.getField "id" with | some (.jstr s) => s | _ => ""),
    type := (match j.getField "type" with | some (.jstr s) => s | _ => ""),
    position :=
      { x := (match (j.getField "position").bind (fun p => p.getField "x") with
              | some (.jnum n) => n | _ => 0),
        y := (match (j.getField "position").bind (fun p => p.getField "y") with
              | some (.jnum n) => n | _ => 0) },
    data :=
      { toolId := (match (j.getField "data").bind (fun d => d.getField "toolId") with
                   | some (.jstr s) => some s | _ => none),
        label := (match (j.getField "data").bind (fun d => d.getField "label") with
                  | some (.jstr s) => some s | _ => none),
        category := (match (j.getField "data").bind (fun d => d.getField "category") with
                     | some (.jstr s) => some s | _ => none) } }

/-- Rebuild a `FlowEdge` from its validated JSON. -/
def edgeFromJson (j : JVal) : FlowEdge :=
  { id := (match j.getField "id" with | some (.jstr s) => s | _ => ""),
    source := (match j.getField "source" with | some (.jstr s) => s | _ => ""),
    target := (match j.getField "target" with | some (.jstr s) => s | _ => ""),
    type := (match j.getField "type" with | some (.jstr s) => some s | _ => none) }

/-- Rebuild a `SharePayload` from its validated JSON. -/
def payloadFromJson (j : JVal) : SharePayload :=
  { v := (match j.getField "v" with | some (.jnum n) => n | _ => 0),
    nodes := (match (j.getField "graph").bind (fun g => g.getField "nodes") with
              | some (.jarr l) => l.map nodeFromJson | _ => []),
    edges := (match (j.getField "graph").bind (fun g => g.getField "edges") with
              | some (.jarr l) => l.map edgeFromJson | _ => []) }

/-- `SerializeResult`. -/
inductive SerializeResult where
  | ok (encoded : String) (nodeCount edgeCount rawLength encodedLength : Nat)
  | err (error : String)
  deriving DecidableEq, Repr

/-- `DeserializeResult`. -/
inductive DeserializeResult where
  | ok (payload : SharePayload)
  | err (error : String)
  deriving DecidableEq, Repr

/-- `serializeGraph` (the `Array.isArray` input guards are statically true
for typed inputs and have no model). -/
def serializeGraph (C : JsonCodec) (nodes : List FlowNode)
    (edges : List FlowEdge) : SerializeResult :=
  if nodes.length > MAX_NODES then
    .err ("Too many nodes (max " ++ toString MAX_NODES ++ ", got " ++
      toString nodes.length ++ ")")
  else if edges.length > MAX_EDGES then
    .err ("Too many edges (max " ++ toString MAX_EDGES ++ ", got " ++
      toString edges.length ++ ")")
  else
    let payload : SharePayload :=
      { v := 1, nodes := canonicalizeNodes nodes, edges := canonicalizeEdges edges }
    let jsonString := C.stringify (payloadToJson payload)
    let encoded := C.compress jsonString
    if encoded.length > MAX_ENCODED_LENGTH then
      .err ("Encoded payload too large (max " ++ toString MAX_ENCODED_LENGTH ++
        " chars, got " ++ toString encoded.length ++ ")")
    else
      .ok encoded nodes.length edges.length jsonString.length encoded.length

/-- `deserializeGraph`.  `if (!jsonString)` treats both a `null` result and
an empty decompression as corruption. -/
def deserializeGraph (C : JsonCodec) (encoded : String) : DeserializeResult :=
  if encoded == "" then .err "Encoded string is required"
  else if encoded.length > MAX_ENCODED_LENGTH then
    .err ("Encoded string too long (max " ++ toString MAX_ENCODED_LENGTH ++
      " chars, got " ++ toString encoded.length ++ ")")
  else
    match C.decompress encoded with
    | none => .err "Failed to decompress data (corrupted or invalid encoding)"
    | some jsonString =>
      if jsonString == "" then
        .err "Failed to decompress data (corrupted or invalid encoding)"
      else
        match C.parse jsonString with
        | .error msg => .err ("Invalid JSON: " ++ msg)
        | .ok payload =>
          match validatePayload payload with
          | some validationError => .err validationError
          | none => .ok (payloadFromJson payload)

/-! ## URL canonicalization (`src/lib/evidence/canonicalize.ts`)

`canonicalizeUrl` delegates parsing to the platform's WHATWG `URL`
constructor.  The constructor is modelled here for absolute http(s) URLs:
scheme, authority (host and numeric port, empty host or a malformed or
out-of-range port is a parse failure, a default port is dropped — the
scheme setter also drops a port equal to the new scheme's default),
path ("" normalizes to "/"), query and fragment split at the first
'?' / '#'.  Percent-encoding, IDNA/punycode, userinfo and dot-segment
normalization are outside the model.  Strings are handled as character
lists (`String.data`). -/

/-- The characters at which the authority section ends. -/
def urlDelim (c : Char) : Bool :=
  c == '/' || c == '?' || c == '#'

/-- Parsed URL components (the WHATWG `URL` object's fields; the port is
kept as its raw digit characters). -/
@[ext]
structure UrlParts where
  protocol : List Char
  hostname : List Char
  port : Option (List Char)
  pathname : List Char
  search : List Char
  hash : List Char
  deriving DecidableEq, Repr

/-- Numeric value of a digit string. -/
def digitsToNat (l : List Char) : Nat :=
  l.foldl (fun n c => n * 10 + (c.toNat - 48)) 0

/-- The scheme's default port (dropped from the URL when matched). -/
def defaultPort (proto : List Char) : Nat :=
  if proto = "https:".data then 443 else 80

/-- Split off a leading `http://` or `https://` scheme. -/
def parseScheme (l : List Char) : Option (List Char × List Char) :=
  if "https://".data.isPrefixOf l then some ("https:".data, l.drop 8)
  else if "http://".data.isPrefixOf l then some ("http:".data, l.drop 7)
  else none

/-- Authority/path/query/fragment parsing after the scheme (the protocol
only determines the default port). -/
def parseRest (proto rest : List Char) : Option UrlParts :=
  let authority := rest.takeWhile (fun c => !urlDelim c)
  let tail := rest.dropWhile (fun c => !urlDelim c)
  let host := authority.takeWhile (fun c => c != ':')
  let hasPort := decide (host.length < authority.length)
  let portStr := authority.drop (host.length + 1)
  if host.isEmpty then none
  else if hasPort && !portStr.all Char.isDigit then none
  else if hasPort && !portStr.isEmpty && decide (digitsToNat portStr > 65535) then
    none
  else
    let port :=
      if hasPort && !portStr.isEmpty &&
          decide (digitsToNat portStr ≠ defaultPort proto) then
        some portStr
      else none
    let path := tail.takeWhile (fun c => !(c == '?' || c == '#'))
    let afterPath := tail.dropWhile (fun c => !(c == '?' || c == '#'))
    let search := afterPath.takeWhile (fun c => c != '#')
    let hash := afterPath.dropWhile (fun c => c != '#')
    some { protocol := proto,
           hostname := host,
           port := port,
           pathname := if path.isEmpty then ['/'] else path,
           search := search,
           hash := hash }

/-- Model of `new URL(s)` for absolute http(s) URLs; `none` models the
constructor throwing. -/
def parseUrlChars (l : List Char) : Option UrlParts :=
  match parseScheme l with
  | none => none
  | some pr => parseRest pr.1 pr.2

/-- WHATWG URL serializer for the modelled components (`parsed.toString()`). -/
def urlToStringChars (p : UrlParts) : List Char :=
  p.protocol ++ "//".data ++ p.hostname ++
  (match p.port with
   | some digits => ':' :: digits
   | none => []) ++
  p.pathname ++ p.search ++ p.hash

/-- `url.toLowerCase()` (ASCII case mapping, as in `Char.toLower`). -/
def jsToLower (l : List Char) : List Char :=
  l.map Char.toLower

/-- `.replace(/^http:/, 'https:')`. -/
def jsReplaceHttp (l : List Char) : List Char :=
  if "http:".data.isPrefixOf l then "https:".data ++ l.drop 5 else l

/-- The single-trailing-slash strip of `canonicalizeUrl`
(`if (pathname !== '/' && pathname.endsWith('/')) pathname.slice(0, -1)`). -/
def stripTrailingSlash (pathname : List Char) : List Char :=
  if pathname ≠ ['/'] && pathname.getLast? == some '/' then pathname.dropLast
  else pathname

/-- The scheme coercion at the top of `canonicalizeUrl`
(`if (!url.startsWith('http://') && !url.startsWith('https://')) url = 'https://' + url`). -/
def coerceScheme (u : List Char) : List Char :=
  if !"http://".data.isPrefixOf u && !"https://".data.isPrefixOf u then
    "https://".data ++ u
  else u

/-- `canonicalizeUrl` on character lists. -/
def canonChars (u : List Char) : List Char :=
  let url := coerceScheme u
  match parseUrlChars url with
  | some parsed =>
    let parsed := { parsed with
      protocol := "https:".data,
      port :=
        if (parsed.port.map digitsToNat) = some 443 then none else parsed.port }
    let parsed := { parsed with hostname := jsToLower parsed.hostname }
    let parsed := { parsed with search := [], hash := [] }
    urlToStringChars { parsed with pathname := stripTrailingSlash parsed.pathname }
  | none => jsReplaceHttp (jsToLower url)

/-- `canonicalizeUrl` from `src/lib/evidence/canonicalize.ts`. -/
def canonicalizeUrl (u : String) : String :=
  String.mk (canonChars u.data)

/-- Shape invariants of the record `canonChars` serializes, strong enough
that re-parsing the serialized output recovers the record. -/
def wfCanon (p : UrlParts) : Prop :=
  p.protocol = "https:".data ∧
  p.hostname ≠ [] ∧
  (∀ c ∈ p.hostname, urlDelim c = false ∧ (c == ':') = false) ∧
  (∀ ds, p.port = some ds → ds ≠ [] ∧ ds.all Char.isDigit = true ∧
    digitsToNat ds ≤ 65535 ∧ digitsToNat ds ≠ 443) ∧
  p.pathname.head? = some '/' ∧
  (∀ c ∈ p.pathname, (c == '?') = false ∧ (c == '#') = false) ∧
  p.search = [] ∧ p.hash = []

/-- The record `canonicalizeUrl` serializes in its non-throwing branch:
the chain of mutations `canonChars` applies to a parsed URL, collected
into one record update. -/
def canonRecord (parsed : UrlParts) : UrlParts :=
  { protocol := "https:".data,
    hostname := jsToLower parsed.hostname,
    port := if (parsed.port.map digitsToNat) = some 443 then none else parsed.port,
    pathname := stripTrailingSlash parsed.pathname,
    search := [], hash := [] }

/-! ## Spec-side definition for the global score

The spec describes the global score as a mean over a *subset* of the
nodes; the engine's `globalVibe` is compared against this rendering. -/

/-- Written from the spec's words, for comparison with `globalVibe`:
"arithmetic mean of all node scores that have a tool selected and at least
one connection; defined as a perfect score when there are no nodes"
(recorded scores; same rounding and clamping as the engine). -/
def specGlobalScore (s : EngineState) : Int :=
  if s.nodes = [] then 100
  else
    let qualifying := s.nodes.filter (fun n =>
      (truthyStr n.data.toolId).isSome &&
      s.edges.any (fun e => e.source == n.id || e.target == n.id))
    let scores := qualifying.filterMap (fun n =>
      (lookupA s.nodeVibes n.id).map (·.score))
    if scores.length = 0 then 100
    else max 0 (min 100 (jsRound scores.sum scores.length))

/-! ## Concrete fixtures used by witnesses and counterexamples -/

/-- A registry entry that declares no relations. -/
def libAlpha : Library :=
  { id := "alpha", name := "Alpha", category := "Frontend", vibe_score := 50,
    best_with := [], friction_with := [], npm_install := "npm i alpha" }

/-- A registry entry declaring friction toward `alpha` (one direction only). -/
def libBeta : Library :=
  { id := "beta", name := "Beta", category := "Database", vibe_score := 50,
    best_with := [], friction_with := ["alpha"], npm_install := "npm i beta" }

/-- Two-entry registry. -/
def regAB : List Library := [libAlpha, libBeta]

/-- Node `n1` with tool `alpha`. -/
def nodeA : FlowNode :=
  { id := "n1", type := "stack", position := { x := 0, y := 0 },
    data := { toolId := some "alpha", label := some "A", category := some "Frontend" } }

/-- Node `n2` with tool `beta`. -/
def nodeB : FlowNode :=
  { id := "n2", type := "stack", position := { x := 1, y := 0 },
    data := { toolId := some "beta", label := some "B", category := some "Database" } }

/-- Node `n3` with no tool and no connections. -/
def nodeC : FlowNode :=
  { id := "n3", type := "stack", position := { x := 2, y := 0 },
    data := { toolId := none, label := some "C", category := some "Auth" } }

/-- The edge joining `n1` and `n2`. -/
def edgeAB : FlowEdge :=
  { id := "e12", source := "n1", target := "n2", type := some "stack" }

/-- A loop edge on `n3`, used to mutate the component disjoint from
`{n1, n2}`. -/
def edgeCC : FlowEdge :=
  { id := "e33", source := "n3", target := "n3", type := none }

/-- Empty engine over the two-entry registry. -/
def emptyEngine : EngineState :=
  { registry := regAB, rules := DEFAULT_VIBE_RULES, nodes := [], edges := [],
    nodeVibes := [], edgeVibes := [] }

/-- Un-audited state holding the three nodes and one edge. -/
def stateAB : EngineState :=
  { emptyEngine with nodes := [nodeA, nodeB, nodeC], edges := [edgeAB] }

/-- The engine after `init([n1, n2, n3], [e12])`. -/
def initAB : EngineState :=
  initEngine emptyEngine [nodeA, nodeB, nodeC] [edgeAB]

/-- A risk pack whose rule fires whenever `nextjs` is present, naming
`fix-1` in its `fixRuleIds`. -/
def packRisk : EvidencePack :=
  { ruleId := "edge-runtime-response-timeout", kind := .risk,
    claim := "Edge responses can time out.", scope := "edge runtimes",
    severity := "medium", confidence := "high", tags := [],
    evidence := [], counterEvidence := [],
    fixRuleIds := some ["fix-1"], needsVerification := false }

/-- A fix pack referenced by `packRisk`. -/
def packFix : EvidencePack :=
  { ruleId := "fix-1", kind := .fix,
    claim := "Stream the response.", scope := "edge runtimes",
    severity := "info", confidence := "high", tags := [],
    evidence := [], counterEvidence := [],
    fixRuleIds := none, needsVerification := false }

/-- Evidence index holding the risk and the fix. -/
def indexRF : List (String × EvidencePack) :=
  [("edge-runtime-response-timeout", packRisk), ("fix-1", packFix)]

/-- A node selecting `nextjs` (so `packRisk` fires). -/
def nodeNext : FlowNode :=
  { id := "m1", type := "stack", position := { x := 0, y := 0 },
    data := { toolId := some "nextjs", label := some "Next", category := some "Frontend" } }

/-- Snapshot whose present tools are `{nextjs}`. -/
def snapNext : VibeSnapshot :=
  { nodes := [nodeNext], edges := [], nodeVibes := [], edgeVibes := [],
    globalVibe := 80 }

/-- Snapshot with no tools present (no risk fires). -/
def snapEmpty : VibeSnapshot :=
  { nodes := [], edges := [], nodeVibes := [], edgeVibes := [], globalVibe := 100 }

/-- A structurally valid node for codec round-trips. -/
def goodNode : FlowNode :=
  { id := "node1", type := "bento", position := { x := 3, y := 4 },
    data := { toolId := some "alpha", label := none, category := some "Frontend" } }

/-- A node with an empty id: `serializeGraph` accepts it, decode validation
rejects it. -/
def badNode : FlowNode :=
  { id := "", type := "bento", position := { x := 0, y := 0 },
    data := { toolId := none, label := none, category := none } }

/-- The canonical payload JSON for the single-good-node graph. -/
def pjGood : JVal :=
  payloadToJson { v := 1, nodes := [goodNode], edges := [] }

/-- The canonical payload JSON for the single-bad-node graph. -/
def pjBad : JVal :=
  payloadToJson { v := 1, nodes := [badNode], edges := [] }

/-- Codec stub satisfying the external round-trip contract at `pjGood`. -/
def codecGood : JsonCodec :=
  { stringify := fun _ => "J", parse := fun _ => .ok pjGood,
    compress := fun s => s, decompress := fun s => some s }

/-- Codec stub satisfying the external round-trip contract at `pjBad`. -/
def codecBad : JsonCodec :=
  { stringify := fun _ => "J", parse := fun _ => .ok pjBad,
    compress := fun s => s, decompress := fun s => some s }

/-! # Theorems -/

/-! ## Association-map lemmas -/

theorem lookupA_cons {α : Type} (kv : String × α) (rest : List (String × α))
    (q : String) :
    lookupA (kv :: rest) q = if kv.1 == q then some kv.2 else lookupA rest q := by
  cases h : kv.1 == q with
  | true => simp [lookupA, List.find?_cons_of_pos, h]
  | false => simp [lookupA, List.find?_cons_of_neg, h]

theorem lookupA_setA {α : Type} (m : List (String × α)) (k q : String) (v : α) :
    lookupA (setA m k v) q = if q = k then some v else lookupA m q := by
  induction m with
  | nil =>
    by_cases hq : q = k
    · subst hq
      simp [setA, lookupA_cons, lookupA]
    · have hkq : (k == q) = false := by
        simp only [beq_eq_false_iff_ne, ne_eq]
        exact fun h => hq h.symm
      simp [setA, lookupA_cons, hkq, hq, lookupA]
  | cons kv rest ih =>
    by_cases hk : kv.1 = k
    · have hb : (kv.1 == k) = true := by simp [hk]
      by_cases hq : q = k
      · subst hq
        simp [setA, hb, lookupA_cons]
      · have hkq : (k == q) = false := by
          simp only [beq_eq_false_iff_ne, ne_eq]
          exact fun h => hq h.symm
        have hkvq : (kv.1 == q) = false := by
          rw [hk]
          exact hkq
        simp [setA, hb, lookupA_cons, hkq, hq, hkvq]
    · have hb : (kv.1 == k) = false := by
        simp only [beq_eq_false_iff_ne, ne_eq]
        exact hk
      by_cases hq2 : kv.1 = q
      · have hq : ¬q = k := fun h => hk (hq2.trans h)
        have hkvq : (kv.1 == q) = true := by simp [hq2]
        simp [setA, hb, lookupA_cons, hkvq, hq]
      · have hkvq : (kv.1 == q) = false := by
          simp only [beq_eq_false_iff_ne, ne_eq]
          exact hq2
        simp [setA, hb, lookupA_cons, hkvq, ih]

theorem lookupA_setA_isSome {α : Type} (m : List (String × α)) (k q : String)
    (v : α) (h : (lookupA m q).isSome) : (lookupA (setA m k v) q).isSome := by
  rw [lookupA_setA]
  by_cases hq : q = k <;> simp [hq, h]

/-! ## Frame lemmas for the audit folds -/

theorem foldl_setA_frame {α β : Type} (l : List β) (key : β → String)
    (cond : β → Prop) [DecidablePred cond] (val : β → α)
    (m : List (String × α)) (k : String)
    (h : ∀ b ∈ l, cond b → key b ≠ k) :
    lookupA (l.foldl (fun m b => if cond b then setA m (key b) (val b) else m) m) k
      = lookupA m k := by
  induction l generalizing m with
  | nil => rfl
  | cons b rest ih =>
    simp only [List.foldl_cons]
    by_cases hc : cond b
    · rw [if_pos hc]
      rw [ih (setA m (key b) (val b)) (fun x hx hcx => h x (by simp [hx]) hcx)]
      rw [lookupA_setA]
      have : k ≠ key b := fun he => h b (by simp) hc he.symm
      simp [this]
    · rw [if_neg hc]
      exact ih m (fun x hx hcx => h x (by simp [hx]) hcx)

theorem foldl_setA_frame_keys {α : Type} (l : List String) (val : String → α)
    (m : List (String × α)) (k : String) (h : k ∉ l) :
    lookupA (l.foldl (fun m id => setA m id (val id)) m) k = lookupA m k := by
  induction l generalizing m with
  | nil => rfl
  | cons b rest ih =>
    simp only [List.foldl_cons]
    rw [ih (setA m b (val b)) (fun hx => h (by simp [hx]))]
    rw [lookupA_setA]
    have : k ≠ b := fun he => h (by simp [he])
    simp [this]

theorem foldl_setA_isSome {α β : Type} (l : List β) (key : β → String)
    (cond : β → Prop) [DecidablePred cond] (val : β → α)
    (m : List (String × α)) (k : String) (h : (lookupA m k).isSome) :
    (lookupA (l.foldl (fun m b => if cond b then setA m (key b) (val b) else m) m)
      k).isSome := by
  induction l generalizing m with
  | nil => exact h
  | cons b rest ih =>
    simp only [List.foldl_cons]
    by_cases hc : cond b
    · rw [if_pos hc]
      exact ih (setA m (key b) (val b)) (lookupA_setA_isSome m (key b) k (val b) h)
    · rw [if_neg hc]
      exact ih m h

theorem foldl_setA_isSome_keys {α : Type} (l : List String) (val : String → α)
    (m : List (String × α)) (k : String) (h : (lookupA m k).isSome) :
    (lookupA (l.foldl (fun m id => setA m id (val id)) m) k).isSome := by
  induction l generalizing m with
  | nil => exact h
  | cons b rest ih =>
    simp only [List.foldl_cons]
    exact ih (setA m b (val b)) (lookupA_setA_isSome m b k (val b) h)

theorem auditRipple_nodeVibes_frame (s : EngineState) (seeds : List String)
    (nid : String)
    (h : nid ∉ connectedComponent (buildAdjacency s.edges) seeds) :
    lookupA (auditRipple s seeds).nodeVibes nid = lookupA s.nodeVibes nid := by
  unfold auditRipple
  exact foldl_setA_frame_keys _ _ _ _ h

theorem auditRipple_edgeVibes_frame (s : EngineState) (seeds : List String)
    (eid : String)
    (h : ∀ e ∈ s.edges, e.id = eid →
      e.source ∉ connectedComponent (buildAdjacency s.edges) seeds ∧
      e.target ∉ connectedComponent (buildAdjacency s.edges) seeds) :
    lookupA (auditRipple s seeds).edgeVibes eid = lookupA s.edgeVibes eid := by
  have h' : ∀ e ∈ s.edges,
      (e.source ∈ connectedComponent (buildAdjacency s.edges) seeds ∨
        e.target ∈ connectedComponent (buildAdjacency s.edges) seeds) →
      e.id ≠ eid := by
    intro e he hc heq
    rcases hc with hc | hc
    · exact (h e he heq).1 hc
    · exact (h e he heq).2 hc
  exact foldl_setA_frame s.edges (fun e => e.id) _
    (fun e => scoreEdge s e.source e.target) s.edgeVibes eid h'

theorem auditRipple_nodeVibes_isSome (s : EngineState) (seeds : List String)
    (k : String) (h : (lookupA s.nodeVibes k).isSome) :
    (lookupA (auditRipple s seeds).nodeVibes k).isSome := by
  unfold auditRipple
  exact foldl_setA_isSome_keys _ _ _ _ h

theorem auditRipple_edgeVibes_isSome (s : EngineState) (seeds : List String)
    (k : String) (h : (lookupA s.edgeVibes k).isSome) :
    (lookupA (auditRipple s seeds).edgeVibes k).isSome := by
  exact foldl_setA_isSome s.edges (fun e => e.id)
    (fun e =>
      e.source ∈ connectedComponent (buildAdjacency s.edges) seeds ∨
      e.target ∈ connectedComponent (buildAdjacency s.edges) seeds)
    (fun e => scoreEdge s e.source e.target) s.edgeVibes k h

theorem auditRipple_edgeVibes_frame_id (s : EngineState) (seeds : List String)
    (eid : String) (h : ∀ e ∈ s.edges, e.id ≠ eid) :
    lookupA (auditRipple s seeds).edgeVibes eid = lookupA s.edgeVibes eid := by
  exact foldl_setA_frame s.edges (fun e => e.id) _
    (fun e => scoreEdge s e.source e.target) s.edgeVibes eid
    (fun e he _ => h e he)

/-! ## C2 — ripple locality -/

/-- C2: every mutation (tool change, edge connect, edge removal) leaves
untouched the recorded score of every node outside the connected component
of the directly affected node ids, and the recorded status of every edge
with neither endpoint in that component.  The component is computed, as in
the engine, by BFS over the post-mutation edge list from the mutation's
seed ids. -/
theorem mutation_locality (s : EngineState) (nodeId toolId : String)
    (newEdge : FlowEdge) (edgeId : String) (removed : FlowEdge)
    (hrem : s.edges.find? (fun e => e.id == edgeId) = some removed) :
    ((∀ nid, nid ∉ connectedComponent (buildAdjacency s.edges) [nodeId] →
        lookupA (updateTool s nodeId toolId).nodeVibes nid =
          lookupA s.nodeVibes nid) ∧
     (∀ eid, (∀ e ∈ s.edges, e.id = eid →
          e.source ∉ connectedComponent (buildAdjacency s.edges) [nodeId] ∧
          e.target ∉ connectedComponent (buildAdjacency s.edges) [nodeId]) →
        lookupA (updateTool s nodeId toolId).edgeVibes eid =
          lookupA s.edgeVibes eid)) ∧
    ((∀ nid, nid ∉ connectedComponent
          (buildAdjacency (s.edges ++ [{ newEdge with type := some "stack" }]))
          [newEdge.source, newEdge.target] →
        lookupA (connectEdge s newEdge).nodeVibes nid =
          lookupA s.nodeVibes nid) ∧
     (∀ eid, (∀ e ∈ s.edges ++ [{ newEdge with type := some "stack" }],
          e.id = eid →
          e.source ∉ connectedComponent
            (buildAdjacency (s.edges ++ [{ newEdge with type := some "stack" }]))
            [newEdge.source, newEdge.target] ∧
          e.target ∉ connectedComponent
            (buildAdjacency (s.edges ++ [{ newEdge with type := some "stack" }]))
            [newEdge.source, newEdge.target]) →
        lookupA (connectEdge s newEdge).edgeVibes eid =
          lookupA s.edgeVibes eid)) ∧
    ((∀ nid, nid ∉ connectedComponent
          (buildAdjacency (s.edges.filter (fun e => e.id != edgeId)))
          [removed.source, removed.target] →
        lookupA (removeEdge s edgeId).nodeVibes nid =
          lookupA s.nodeVibes nid) ∧
     (∀ eid, (∀ e ∈ s.edges.filter (fun e => e.id != edgeId),
          e.id = eid →
          e.source ∉ connectedComponent
            (buildAdjacency (s.edges.filter (fun e => e.id != edgeId)))
            [removed.source, removed.target] ∧
          e.target ∉ connectedComponent
            (buildAdjacency (s.edges.filter (fun e => e.id != edgeId)))
            [removed.source, removed.target]) →
        lookupA (removeEdge s edgeId).edgeVibes eid =
          lookupA s.edgeVibes eid)) := by
  have hrm : removeEdge s edgeId =
      auditRipple { s with edges := s.edges.filter (fun e => e.id != edgeId) }
        [removed.source, removed.target] := by
    unfold removeEdge
    rw [hrem]
  refine ⟨⟨?_, ?_⟩, ⟨?_, ?_⟩, ⟨?_, ?_⟩⟩
  · intro nid h
    exact auditRipple_nodeVibes_frame
      { s with nodes := s.nodes.map (fun n =>
          if n.id == nodeId then { n with data := { n.data with toolId := some toolId } }
          else n) } [nodeId] nid h
  · intro eid h
    exact auditRipple_edgeVibes_frame
      { s with nodes := s.nodes.map (fun n =>
          if n.id == nodeId then { n with data := { n.data with toolId := some toolId } }
          else n) } [nodeId] eid h
  · intro nid h
    exact auditRipple_nodeVibes_frame
      { s with edges := s.edges ++ [{ newEdge with type := some "stack" }] }
      [newEdge.source, newEdge.target] nid h
  · intro eid h
    exact auditRipple_edgeVibes_frame
      { s with edges := s.edges ++ [{ newEdge with type := some "stack" }] }
      [newEdge.source, newEdge.target] eid h
  · intro nid h
    rw [hrm]
    exact auditRipple_nodeVibes_frame
      { s with edges := s.edges.filter (fun e => e.id != edgeId) }
      [removed.source, removed.target] nid h
  · intro eid h
    rw [hrm]
    exact auditRipple_edgeVibes_frame
      { s with edges := s.edges.filter (fun e => e.id != edgeId) }
      [removed.source, removed.target] eid h

/-- Witness for C2: on the audited fixture graph `{n1–n2, n3}`, a tool
change on `n1`, a loop edge connected at `n3`, and removal of `e12` each
leave the disjoint parts' recorded entries unchanged. -/
theorem mutation_locality_witness :
    lookupA (updateTool initAB "n1" "beta").nodeVibes "n3" =
      lookupA initAB.nodeVibes "n3" ∧
    lookupA (connectEdge initAB edgeCC).nodeVibes "n1" =
      lookupA initAB.nodeVibes "n1" ∧
    lookupA (connectEdge initAB edgeCC).edgeVibes "e12" =
      lookupA initAB.edgeVibes "e12" ∧
    lookupA (removeEdge initAB "e12").nodeVibes "n3" =
      lookupA initAB.nodeVibes "n3" := by
  have h := mutation_locality initAB "n1" "beta" edgeCC "e12" edgeAB (by decide)
  exact ⟨h.1.1 "n3" (by decide), h.2.1.1 "n1" (by decide),
    h.2.1.2 "e12" (by decide), h.2.2.1 "n3" (by decide)⟩

/-! ## C10 — derived maps are never pruned -/

/-- C10: no mutation deletes an entry from the derived maps — `updateTool`,
`connectEdge` and `removeEdge` preserve every present `nodeVibes` /
`edgeVibes` key — and after `removeEdge(edgeId)` of a present edge the
`edgeVibes` entry for the removed id still holds its pre-removal value,
while the edge list no longer contains any edge with that id. -/
theorem derived_maps_no_deletion :
    (∀ s nodeId toolId k, (lookupA s.nodeVibes k).isSome →
        (lookupA (updateTool s nodeId toolId).nodeVibes k).isSome) ∧
    (∀ s nodeId toolId k, (lookupA s.edgeVibes k).isSome →
        (lookupA (updateTool s nodeId toolId).edgeVibes k).isSome) ∧
    (∀ s edge k, (lookupA s.nodeVibes k).isSome →
        (lookupA (connectEdge s edge).nodeVibes k).isSome) ∧
    (∀ s edge k, (lookupA s.edgeVibes k).isSome →
        (lookupA (connectEdge s edge).edgeVibes k).isSome) ∧
    (∀ s edgeId k, (lookupA s.nodeVibes k).isSome →
        (lookupA (removeEdge s edgeId).nodeVibes k).isSome) ∧
    (∀ s edgeId k, (lookupA s.edgeVibes k).isSome →
        (lookupA (removeEdge s edgeId).edgeVibes k).isSome) ∧
    (∀ s edgeId removed, s.edges.find? (fun e => e.id == edgeId) = some removed →
        lookupA (removeEdge s edgeId).edgeVibes edgeId = lookupA s.edgeVibes edgeId ∧
        (removeEdge s edgeId).edges.find? (fun e => e.id == edgeId) = none) := by
  refine ⟨?_, ?_, ?_, ?_, ?_, ?_, ?_⟩
  · intro s nodeId toolId k h
    exact auditRipple_nodeVibes_isSome
      { s with nodes := s.nodes.map (fun n =>
          if n.id == nodeId then { n with data := { n.data with toolId := some toolId } }
          else n) } [nodeId] k h
  · intro s nodeId toolId k h
    exact auditRipple_edgeVibes_isSome
      { s with nodes := s.nodes.map (fun n =>
          if n.id == nodeId then { n with data := { n.data with toolId := some toolId } }
          else n) } [nodeId] k h
  · intro s edge k h
    exact auditRipple_nodeVibes_isSome
      { s with edges := s.edges ++ [{ edge with type := some "stack" }] }
      [edge.source, edge.target] k h
  · intro s edge k h
    exact auditRipple_edgeVibes_isSome
      { s with edges := s.edges ++ [{ edge with type := some "stack" }] }
      [edge.source, edge.target] k h
  · intro s edgeId k h
    unfold removeEdge
    cases hf : s.edges.find? (fun e => e.id == edgeId) with
    | some removed =>
      exact auditRipple_nodeVibes_isSome
        { s with edges := s.edges.filter (fun e => e.id != edgeId) }
        [removed.source, removed.target] k h
    | none =>
      exact auditRipple_nodeVibes_isSome
        { s with edges := s.edges.filter (fun e => e.id != edgeId) } _ k h
  · intro s edgeId k h
    unfold removeEdge
    cases hf : s.edges.find? (fun e => e.id == edgeId) with
    | some removed =>
      exact auditRipple_edgeVibes_isSome
        { s with edges := s.edges.filter (fun e => e.id != edgeId) }
        [removed.source, removed.target] k h
    | none =>
      exact auditRipple_edgeVibes_isSome
        { s with edges := s.edges.filter (fun e => e.id != edgeId) } _ k h
  · intro s edgeId removed hf
    have hall : ∀ e ∈ s.edges.filter (fun e => e.id != edgeId), e.id ≠ edgeId := by
      intro e he
      have := (List.mem_filter.mp he).2
      simpa [bne_iff_ne] using this
    constructor
    · unfold removeEdge
      rw [hf]
      exact auditRipple_edgeVibes_frame_id
        { s with edges := s.edges.filter (fun e => e.id != edgeId) }
        [removed.source, removed.target] edgeId hall
    · have hedges : (removeEdge s edgeId).edges =
          s.edges.filter (fun e => e.id != edgeId) := by
        unfold removeEdge
        rw [hf]
        rfl
      rw [hedges]
      apply List.find?_eq_none.mpr
      intro e he
      have := hall e he
      simp [this]

/-- Witness for C10: on the fixture graph, removing `e12` keeps its stale
collision entry while the edge itself is gone, and a tool change keeps the
entry for `n2`. -/
theorem derived_maps_no_deletion_witness :
    lookupA (removeEdge initAB "e12").edgeVibes "e12" =
      lookupA initAB.edgeVibes "e12" ∧
    (removeEdge initAB "e12").edges.find? (fun e => e.id == "e12") = none ∧
    (lookupA (updateTool initAB "n1" "beta").nodeVibes "n2").isSome := by
  have h := derived_maps_no_deletion
  have h7 := h.2.2.2.2.2.2 initAB "e12" edgeAB (by decide)
  exact ⟨h7.1, h7.2, h.1 initAB "n1" "beta" "n2" (by decide)⟩

/-! ## C1 — edge scoring cases -/

/-- C1: when either endpoint's tool fails to resolve, `scoreEdge` is
`NEUTRAL` with the descriptive reason; when both resolve, friction declared
in either direction gives `COLLISION` (taking precedence over affinity),
else affinity declared in either direction gives `NATIVE`, else `NEUTRAL`. -/
theorem scoreEdge_cases (s : EngineState) (a b : String) :
    ((nodeLib s a = none ∨ nodeLib s b = none) →
      scoreEdge s a b = { status := .NEUTRAL, reason := "Missing tool selection." }) ∧
    (∀ aLib bLib, nodeLib s a = some aLib → nodeLib s b = some bLib →
      ((bLib.id ∈ aLib.friction_with ∨ aLib.id ∈ bLib.friction_with) →
        (scoreEdge s a b).status = .COLLISION) ∧
      (¬(bLib.id ∈ aLib.friction_with ∨ aLib.id ∈ bLib.friction_with) →
        (bLib.id ∈ aLib.best_with ∨ aLib.id ∈ bLib.best_with) →
        (scoreEdge s a b).status = .NATIVE) ∧
      (¬(bLib.id ∈ aLib.friction_with ∨ aLib.id ∈ bLib.friction_with) →
        ¬(bLib.id ∈ aLib.best_with ∨ aLib.id ∈ bLib.best_with) →
        scoreEdge s a b =
          { status := .NEUTRAL, reason := "No explicit relationship." })) := by
  constructor
  · intro h
    unfold scoreEdge
    rcases h with h | h
    · rw [h]
    · rw [h]
      cases nodeLib s a <;> rfl
  · intro aLib bLib ha hb
    have hsc : scoreEdge s a b =
        (if aLib.friction_with.contains bLib.id ||
            bLib.friction_with.contains aLib.id then
          { status := .COLLISION,
            reason := aLib.name ++ " friction with " ++ bLib.name }
        else if aLib.best_with.contains bLib.id ||
            bLib.best_with.contains aLib.id then
          { status := .NATIVE,
            reason := aLib.name ++ " vibes with " ++ bLib.name }
        else { status := .NEUTRAL, reason := "No explicit relationship." }) := by
      unfold scoreEdge
      rw [ha, hb]
    refine ⟨?_, ?_, ?_⟩
    · intro hf
      have hc : (aLib.friction_with.contains bLib.id ||
          bLib.friction_with.contains aLib.id) = true := by
        rcases hf with hf | hf <;> simp [hf]
      rw [hsc, if_pos hc]
    · intro hnf hbw
      have hcf : ¬((aLib.friction_with.contains bLib.id ||
          bLib.friction_with.contains aLib.id) = true) := by
        simp only [Bool.or_eq_true, List.contains_iff_exists_mem_beq]
        intro hcontra
        apply hnf
        rcases hcontra with ⟨x, hx, he⟩ | ⟨x, hx, he⟩
        · exact Or.inl (by rwa [show bLib.id = x from eq_of_beq he])
        · exact Or.inr (by rwa [show aLib.id = x from eq_of_beq he])
      have hcb : (aLib.best_with.contains bLib.id ||
          bLib.best_with.contains aLib.id) = true := by
        rcases hbw with hb2 | hb2 <;> simp [hb2]
      rw [hsc, if_neg hcf, if_pos hcb]
    · intro hnf hnb
      have hcf : ¬((aLib.friction_with.contains bLib.id ||
          bLib.friction_with.contains aLib.id) = true) := by
        simp only [Bool.or_eq_true, List.contains_iff_exists_mem_beq]
        intro hcontra
        apply hnf
        rcases hcontra with ⟨x, hx, he⟩ | ⟨x, hx, he⟩
        · exact Or.inl (by rwa [show bLib.id = x from eq_of_beq he])
        · exact Or.inr (by rwa [show aLib.id = x from eq_of_beq he])
      have hcb : ¬((aLib.best_with.contains bLib.id ||
          bLib.best_with.contains aLib.id) = true) := by
        simp only [Bool.or_eq_true, List.contains_iff_exists_mem_beq]
        intro hcontra
        apply hnb
        rcases hcontra with ⟨x, hx, he⟩ | ⟨x, hx, he⟩
        · exact Or.inl (by rwa [show bLib.id = x from eq_of_beq he])
        · exact Or.inr (by rwa [show aLib.id = x from eq_of_beq he])
      rw [hsc, if_neg hcf, if_neg hcb]

/-- Witness for C1: on the fixture state, `n1`/`n2` resolve to
`Alpha`/`Beta` with friction declared by `Beta`, so the edge scores
`COLLISION`; the unresolved node `n3` scores `NEUTRAL`. -/
theorem scoreEdge_cases_witness :
    (scoreEdge stateAB "n1" "n2").status = EdgeStatus.COLLISION ∧
    scoreEdge stateAB "n3" "n2" =
      { status := .NEUTRAL, reason := "Missing tool selection." } := by
  refine ⟨?_, ?_⟩
  · exact ((scoreEdge_cases stateAB "n1" "n2").2 libAlpha libBeta (by decide)
      (by decide)).1 (by decide)
  · exact (scoreEdge_cases stateAB "n3" "n2").1 (Or.inl (by decide))

/-! ## C5 — symmetry of edge scoring -/

/-- C5 counterexample: with friction between tools of different names the
two call orders return different `reason` strings, so the full results of
`scoreEdge(A,B)` and `scoreEdge(B,A)` differ. -/
theorem scoreEdge_not_symmetric :
    scoreEdge stateAB "n1" "n2" ≠ scoreEdge stateAB "n2" "n1" ∧
    (scoreEdge stateAB "n1" "n2").reason = "Alpha friction with Beta" ∧
    (scoreEdge stateAB "n2" "n1").reason = "Beta friction with Alpha" := by
  refine ⟨by decide, rfl, rfl⟩

/-- C5 amended: the *status* of `scoreEdge` is symmetric in its endpoints
(the reason string is not, as it names the endpoints in call order). -/
theorem scoreEdge_status_symm (s : EngineState) (a b : String) :
    (scoreEdge s a b).status = (scoreEdge s b a).status := by
  unfold scoreEdge
  cases ha : nodeLib s a <;> cases hb : nodeLib s b
  · rfl
  · rfl
  · rfl
  · rename_i aLib bLib
    by_cases m1 : bLib.id ∈ aLib.friction_with <;>
      by_cases m2 : aLib.id ∈ bLib.friction_with <;>
      by_cases m3 : bLib.id ∈ aLib.best_with <;>
      by_cases m4 : aLib.id ∈ bLib.best_with <;>
      simp [m1, m2, m3, m4]

/-! ## C6 — node scoring -/

theorem scoreNodeStep_foldl (s : EngineState) (lib : Library) (l : List String)
    (acc : NodeAcc) :
    l.foldl (scoreNodeStep s lib) acc =
      { score := acc.score +
          ((l.filter (nbBest s lib)).length : Int) * s.rules.bestBonus -
          ((l.filter (nbFric s lib)).length : Int) * s.rules.frictionPenalty,
        unknown := acc.unknown + ((l.filter (nbUnknown s lib)).length : Int),
        notes := acc.notes ++ l.filterMap (nbNote s lib) } := by
  induction l generalizing acc with
  | nil => simp
  | cons nb rest ih =>
    simp only [List.foldl_cons]
    rw [ih]
    cases hnb : nodeLib s nb with
    | none =>
      have h1 : nbBest s lib nb = false := by simp [nbBest, hnb]
      have h2 : nbFric s lib nb = false := by simp [nbFric, hnb]
      have h3 : nbUnknown s lib nb = true := by simp [nbUnknown, hnb]
      have h4 : nbNote s lib nb = none := by simp [nbNote, hnb]
      have hstep : scoreNodeStep s lib acc nb =
          { acc with unknown := acc.unknown + 1 } := by
        unfold scoreNodeStep
        rw [hnb]
      rw [hstep]
      simp only [List.filter_cons, h1, h2, h3, List.filterMap_cons, h4,
        if_pos, if_neg, Bool.false_eq_true, ite_false, ite_true,
        List.length_cons]
      refine congrArg₂ _ ?_ rfl
      simp [NodeAcc.mk.injEq]
      ring
    | some nbLib =>
      by_cases hf : nbLib.id ∈ lib.friction_with
      · have h1 : nbBest s lib nb = false := by simp [nbBest, hnb, hf]
        have h2 : nbFric s lib nb = true := by simp [nbFric, hnb, hf]
        have h3 : nbUnknown s lib nb = false := by simp [nbUnknown, hnb, hf]
        have h4 : nbNote s lib nb =
            some ("Friction: " ++ lib.name ++ " ↔ " ++ nbLib.name) := by
          simp [nbNote, hnb, hf]
        have hstep : scoreNodeStep s lib acc nb =
            { acc with score := acc.score - s.rules.frictionPenalty,
                       notes := acc.notes ++
                         ["Friction: " ++ lib.name ++ " ↔ " ++ nbLib.name] } := by
          unfold scoreNodeStep
          rw [hnb]
          simp [hf]
        rw [hstep]
        simp only [List.filter_cons, h1, h2, h3, List.filterMap_cons, h4,
          Bool.false_eq_true, ite_false, ite_true, List.length_cons]
        simp [NodeAcc.mk.injEq]
        ring
      · by_cases hbw : nbLib.id ∈ lib.best_with
        · have h1 : nbBest s lib nb = true := by simp [nbBest, hnb, hf, hbw]
          have h2 : nbFric s lib nb = false := by simp [nbFric, hnb, hf]
          have h3 : nbUnknown s lib nb = false := by simp [nbUnknown, hnb, hf, hbw]
          have h4 : nbNote s lib nb = none := by simp [nbNote, hnb, hf]
          have hstep : scoreNodeStep s lib acc nb =
              { acc with score := acc.score + s.rules.bestBonus } := by
            unfold scoreNodeStep
            rw [hnb]
            simp [hf, hbw]
          rw [hstep]
          simp only [List.filter_cons, h1, h2, h3, List.filterMap_cons, h4,
            Bool.false_eq_true, ite_false, ite_true, List.length_cons]
          simp [NodeAcc.mk.injEq]
          ring
        · have h1 : nbBest s lib nb = false := by simp [nbBest, hnb, hf, hbw]
          have h2 : nbFric s lib nb = false := by simp [nbFric, hnb, hf]
          have h3 : nbUnknown s lib nb = true := by simp [nbUnknown, hnb, hf, hbw]
          have h4 : nbNote s lib nb = none := by simp [nbNote, hnb, hf]
          have hstep : scoreNodeStep s lib acc nb =
              { acc with unknown := acc.unknown + 1 } := by
            unfold scoreNodeStep
            rw [hnb]
            simp [hf, hbw]
          rw [hstep]
          simp only [List.filter_cons, h1, h2, h3, List.filterMap_cons, h4,
            Bool.false_eq_true, ite_false, ite_true, List.length_cons]
          simp [NodeAcc.mk.injEq]
          ring

/-- C6 amended: for a node whose tool resolves, `scoreNode` starts from the
tool's base score, adds the affinity bonus per neighbour the node's *own*
tool declares affinity toward, subtracts the friction penalty (recording a
note) per neighbour its own tool declares friction toward — the neighbour's
declarations toward the node are not consulted — counts every other
neighbour (unresolvable or undeclared) as unknown, subtracts
`unknown × unknownPenalty`, clamps to [0, 100] and classifies at
thresholds 80/60/40; without a node or resolvable tool the result is
score 0 with status `BROKEN`. -/
theorem scoreNode_characterization (s : EngineState) (nodeId : String)
    (adj : List (String × List String)) :
    ((s.nodes.find? (fun n => n.id == nodeId) = none ∨ nodeLib s nodeId = none) →
      scoreNode s nodeId adj =
        { score := 0, status := .BROKEN,
          notes := ["Select a tool to compute vibe."] }) ∧
    (∀ lib, nodeLib s nodeId = some lib →
      (s.nodes.find? (fun n => n.id == nodeId)).isSome →
      scoreNode s nodeId adj =
        (let neighbors := (lookupA adj nodeId).getD []
         let raw := lib.vibe_score +
             ((neighbors.filter (nbBest s lib)).length : Int) * s.rules.bestBonus -
             ((neighbors.filter (nbFric s lib)).length : Int) * s.rules.frictionPenalty -
             ((neighbors.filter (nbUnknown s lib)).length : Int) * s.rules.unknownPenalty
         { score := clamp01_100 raw, status := statusOfScore (clamp01_100 raw),
           notes := neighbors.filterMap (nbNote s lib) })) := by
  constructor
  · intro h
    unfold scoreNode
    rcases h with h | h
    · rw [h]
    · rw [h]
      cases s.nodes.find? (fun n => n.id == nodeId) <;> rfl
  · intro lib hl hn
    obtain ⟨node, hnode⟩ := Option.isSome_iff_exists.mp hn
    unfold scoreNode
    rw [hnode, hl]
    simp only
    rw [scoreNodeStep_foldl]
    simp only [zero_add, List.nil_append]

/-- Witness for C6 (amended): evaluating the characterization on the
fixture graph — `n1` (tool `Alpha`, one undeclared neighbour) and the
tool-less `n3`. -/
theorem scoreNode_characterization_witness :
    scoreNode stateAB "n1" (buildAdjacency stateAB.edges) =
      { score := 47, status := .SUS, notes := [] } ∧
    scoreNode stateAB "n3" (buildAdjacency stateAB.edges) =
      { score := 0, status := .BROKEN,
        notes := ["Select a tool to compute vibe."] } := by
  constructor
  · have h := (scoreNode_characterization stateAB "n1"
      (buildAdjacency stateAB.edges)).2 libAlpha (by decide) (by decide)
    rw [h]
    decide
  · exact (scoreNode_characterization stateAB "n3"
      (buildAdjacency stateAB.edges)).1 (Or.inr (by decide))

/-- C6 counterexample: `Beta` declares friction toward `Alpha` (and `n2` is
a resolvable neighbour of `n1`), yet `scoreNode("n1")` treats the neighbour
as *unknown* — score 50 − 3 = 47, no friction note — instead of applying
the friction penalty: a declaration in the neighbour's direction does not
count. -/
theorem scoreNode_neighbor_friction_ignored :
    nodeLib stateAB "n1" = some libAlpha ∧
    nodeLib stateAB "n2" = some libBeta ∧
    libAlpha.id ∈ libBeta.friction_with ∧
    "n2" ∈ (lookupA (buildAdjacency stateAB.edges) "n1").getD [] ∧
    scoreNode stateAB "n1" (buildAdjacency stateAB.edges) =
      { score := 47, status := .SUS, notes := [] } ∧
    (47 : Int) ≠
      clamp01_100 (libAlpha.vibe_score - DEFAULT_VIBE_RULES.frictionPenalty) := by
  refine ⟨by decide, by decide, by decide, by decide, by decide, by decide⟩

/-! ## C7 — global score -/

theorem lookupA_mem {α : Type} (m : List (String × α)) (k : String) (v : α)
    (h : lookupA m k = some v) : (k, v) ∈ m := by
  induction m with
  | nil => simp [lookupA] at h
  | cons kv rest ih =>
    rw [lookupA_cons] at h
    by_cases hk : (kv.1 == k) = true
    · rw [if_pos hk] at h
      have h1 : kv.1 = k := by simpa using hk
      have h2 : kv.2 = v := by simpa using h
      have : kv = (k, v) := by
        cases kv
        simp_all
      rw [← this]
      exact List.mem_cons_self _ _
    · rw [if_neg hk] at h
      exact List.mem_cons_of_mem _ (ih h)

theorem bfsPush_all_mem (nbs : List String) (p : List String × List String)
    (h : ∀ x ∈ nbs, x ∈ p.1) : nbs.foldl bfsPush p = p := by
  induction nbs generalizing p with
  | nil => rfl
  | cons x rest ih =>
    simp only [List.foldl_cons]
    have hx : bfsPush p x = p := by
      unfold bfsPush
      rw [if_pos (h x (by simp))]
    rw [hx]
    exact ih p (fun y hy => h y (by simp [hy]))

theorem bfsLoop_closed (adj : List (String × List String)) (seen : List String)
    (h : ∀ kv ∈ adj, ∀ nb ∈ kv.2, nb ∈ seen) :
    ∀ (fuel : Nat) (q : List String), bfsLoop adj seen q fuel = seen := by
  intro fuel
  induction fuel with
  | zero => intro q; cases q <;> rfl
  | succ fuel ih =>
    intro q
    cases q with
    | nil => rfl
    | cons cur rest =>
      unfold bfsLoop
      cases hl : lookupA adj cur with
      | none => exact ih rest
      | some nbs =>
        have hmem := lookupA_mem adj cur nbs hl
        have hfold : nbs.foldl bfsPush (seen, rest) = (seen, rest) :=
          bfsPush_all_mem nbs (seen, rest) (fun x hx => h _ hmem x hx)
        simp only [hfold]
        exact ih rest

theorem bfsPush_fresh (seeds : List String) (A Q : List String)
    (hnd : seeds.Nodup) (hdis : ∀ x ∈ seeds, x ∉ A) :
    seeds.foldl bfsPush (A, Q) = (A ++ seeds, Q ++ seeds) := by
  induction seeds generalizing A Q with
  | nil => simp
  | cons x rest ih =>
    simp only [List.foldl_cons]
    have hx : bfsPush (A, Q) x = (A ++ [x], Q ++ [x]) := by
      unfold bfsPush
      rw [if_neg (hdis x (by simp))]
    rw [hx]
    have hnd' : rest.Nodup := (List.nodup_cons.mp hnd).2
    have hdis' : ∀ y ∈ rest, y ∉ A ++ [x] := by
      intro y hy
      simp only [List.mem_append, List.mem_singleton]
      rintro (hA | hx2)
      · exact hdis y (by simp [hy]) hA
      · subst hx2
        exact (List.nodup_cons.mp hnd).1 hy
    rw [ih (A ++ [x]) (Q ++ [x]) hnd' hdis']
    simp

theorem connectedComponent_closed (adj : List (String × List String))
    (seeds : List String) (hnd : seeds.Nodup)
    (h : ∀ kv ∈ adj, ∀ nb ∈ kv.2, nb ∈ seeds) :
    connectedComponent adj seeds = seeds := by
  unfold connectedComponent
  have hstart : seeds.foldl bfsPush ([], []) = (seeds, seeds) := by
    have := bfsPush_fresh seeds [] [] hnd (by simp)
    simpa using this
  simp only [hstart]
  exact bfsLoop_closed adj seeds h _ _

theorem adjEnsure_values (adj : List (String × List String)) (k : String)
    (P : String → Prop) (h : ∀ kv ∈ adj, ∀ x ∈ kv.2, P x) :
    ∀ kv ∈ adjEnsure adj k, ∀ x ∈ kv.2, P x := by
  intro kv hkv x hx
  unfold adjEnsure at hkv
  by_cases hc : (adj.find? (fun kv => kv.1 == k)).isSome
  · rw [if_pos hc] at hkv
    exact h kv hkv x hx
  · rw [if_neg hc] at hkv
    rcases List.mem_append.mp hkv with hm | hm
    · exact h kv hm x hx
    · simp only [List.mem_singleton] at hm
      subst hm
      simp at hx

theorem adjAddNb_values (adj : List (String × List String)) (k nb : String)
    (P : String → Prop) (h : ∀ kv ∈ adj, ∀ x ∈ kv.2, P x) (hnb : P nb) :
    ∀ kv ∈ adjAddNb adj k nb, ∀ x ∈ kv.2, P x := by
  intro kv' hkv' x hx
  unfold adjAddNb at hkv'
  rcases List.mem_map.mp hkv' with ⟨kv, hkv, heq⟩
  by_cases hc : (kv.1 == k) = true
  · rw [if_pos hc] at heq
    rw [← heq] at hx
    simp only at hx
    by_cases hin : nb ∈ kv.2
    · rw [if_pos hin] at hx
      exact h kv hkv x hx
    · rw [if_neg hin] at hx
      rcases List.mem_append.mp hx with hm | hm
      · exact h kv hkv x hm
      · simp only [List.mem_singleton] at hm
        subst hm
        exact hnb
  · rw [if_neg hc] at heq
    rw [← heq] at hx
    exact h kv hkv x hx

theorem buildAdjacency_values (edges : List FlowEdge) (P : String → Prop)
    (hedges : ∀ e ∈ edges, P e.source ∧ P e.target) :
    ∀ kv ∈ buildAdjacency edges, ∀ x ∈ kv.2, P x := by
  unfold buildAdjacency
  suffices hgen : ∀ (l : List FlowEdge) (adj : List (String × List String)),
      (∀ e ∈ l, P e.source ∧ P e.target) →
      (∀ kv ∈ adj, ∀ x ∈ kv.2, P x) →
      ∀ kv ∈ l.foldl
        (fun adj e =>
          adjAddNb (adjAddNb (adjEnsure (adjEnsure adj e.source) e.target)
            e.source e.target) e.target e.source) adj,
        ∀ x ∈ kv.2, P x by
    exact hgen edges [] hedges (by simp)
  intro l
  induction l with
  | nil =>
    intro adj _ hadj
    simpa using hadj
  | cons e rest ih =>
    intro adj hl hadj
    simp only [List.foldl_cons]
    apply ih
    · intro e' he'
      exact hl e' (by simp [he'])
    · apply adjAddNb_values _ _ _ P
      · apply adjAddNb_values _ _ _ P
        · exact adjEnsure_values _ _ P (adjEnsure_values _ _ P hadj)
        · exact (hl e (by simp)).2
      · exact (hl e (by simp)).1

theorem setA_append {α : Type} (m : List (String × α)) (k : String) (v : α)
    (h : ∀ kv ∈ m, kv.1 ≠ k) : setA m k v = m ++ [(k, v)] := by
  induction m with
  | nil => rfl
  | cons kv rest ih =>
    have hne : ¬((kv.1 == k) = true) := by
      simp only [beq_iff_eq]
      exact h kv (by simp)
    show (if kv.1 == k then (k, v) :: rest else kv :: setA rest k v) = _
    rw [if_neg hne]
    rw [ih (fun kv' h' => h kv' (by simp [h']))]
    simp

theorem foldl_setA_map {α : Type} (ids : List String) (g : String → α)
    (m : List (String × α)) (hd : ids.Nodup)
    (hm : ∀ id ∈ ids, ∀ kv ∈ m, kv.1 ≠ id) :
    ids.foldl (fun m id => setA m id (g id)) m =
      m ++ ids.map (fun id => (id, g id)) := by
  induction ids generalizing m with
  | nil => simp
  | cons i rest ih =>
    simp only [List.foldl_cons]
    rw [setA_append m i (g i) (fun kv hkv => hm i (by simp) kv hkv)]
    have hm2 : ∀ id ∈ rest, ∀ kv ∈ m ++ [(i, g i)], kv.1 ≠ id := by
      intro id hid kv hkv
      rcases List.mem_append.mp hkv with hkv | hkv
      · exact hm id (by simp [hid]) kv hkv
      · simp only [List.mem_singleton] at hkv
        subst hkv
        intro he
        apply (List.nodup_cons.mp hd).1
        have hid2 : i = id := he
        rw [hid2]
        exact hid
    rw [ih (m ++ [(i, g i)]) (List.nodup_cons.mp hd).2 hm2]
    simp

/-- C7 amended: the engine's global score is the clamped, rounded
arithmetic mean over ALL recorded node scores — after an initial audit of a
graph whose edges connect existing nodes that is every node, including
ones without a selected tool or without connections — and 100 when no
scores are recorded (in particular for an empty graph). -/
theorem globalVibe_mean_of_all_nodes (s0 : EngineState) (nodes : List FlowNode)
    (edges : List FlowEdge) (hnv : s0.nodeVibes = [])
    (hnd : (nodes.map (fun n => n.id)).Nodup)
    (hep : ∀ e ∈ edges, e.source ∈ nodes.map (fun n => n.id) ∧
      e.target ∈ nodes.map (fun n => n.id)) :
    globalVibe (initEngine s0 nodes edges) =
      if nodes = [] then 100
      else
        max 0 (min 100 (jsRound
          ((nodes.map (fun n =>
            (scoreNode { s0 with nodes := nodes, edges := edges } n.id
              (buildAdjacency edges)).score)).sum)
          nodes.length)) := by
  have hcomp : connectedComponent (buildAdjacency edges)
      (nodes.map (fun n => n.id)) = nodes.map (fun n => n.id) :=
    connectedComponent_closed _ _ hnd (buildAdjacency_values edges _ hep)
  have hν : (initEngine s0 nodes edges).nodeVibes =
      (nodes.map (fun n => n.id)).map
        (fun id => (id, scoreNode { s0 with nodes := nodes, edges := edges } id
          (buildAdjacency edges))) := by
    show ((connectedComponent (buildAdjacency edges) (nodes.map (fun n => n.id))).foldl
        (fun m id => setA m id
          (scoreNode { s0 with nodes := nodes, edges := edges } id
            (buildAdjacency edges)))
        s0.nodeVibes) = _
    rw [hcomp, hnv]
    rw [foldl_setA_map _ _ [] hnd (by simp)]
    simp
  by_cases hn : nodes = []
  · subst hn
    unfold globalVibe
    rw [if_pos (by simpa using hν)]
    simp
  · unfold globalVibe
    rw [if_neg (by simp [hν, hn]), if_neg hn]
    rw [hν]
    simp only [List.map_map, List.length_map]
    rfl

/-- Witness for C7 (amended): on the fixture graph the mean over all three
recorded scores (47, 15, 0) rounds to 21. -/
theorem globalVibe_mean_of_all_nodes_witness : globalVibe initAB = 21 := by
  have h := globalVibe_mean_of_all_nodes emptyEngine [nodeA, nodeB, nodeC]
    [edgeAB] rfl (by decide) (by decide)
  show globalVibe (initEngine emptyEngine [nodeA, nodeB, nodeC] [edgeAB]) = 21
  rw [h]
  decide

/-- C7 counterexample: on the fixture graph the engine reports 21 — the
mean over all three recorded scores, including the tool-less, unconnected
`n3` — while the claim's mean over nodes with a tool and a connection is
31. -/
theorem globalVibe_counts_all_recorded :
    globalVibe initAB ≠ specGlobalScore initAB ∧
    globalVibe initAB = 21 ∧ specGlobalScore initAB = 31 := by
  refine ⟨by decide, by decide, by decide⟩

/-! ## C3 — fix gating in the report builder -/

theorem lookupA_unique {α : Type} (m : List (String × α)) (k : String) (v : α)
    (hnd : (m.map (fun kv => kv.1)).Nodup) (hmem : (k, v) ∈ m) :
    lookupA m k = some v := by
  induction m with
  | nil => simp at hmem
  | cons kv rest ih =>
    rcases List.mem_cons.mp hmem with heq | hmem'
    · rw [← heq, lookupA_cons]
      simp
    · have hk : k ∈ rest.map (fun kv => kv.1) :=
        List.mem_map.mpr ⟨(k, v), hmem', rfl⟩
      have hne : kv.1 ≠ k := by
        intro he
        exact (List.nodup_cons.mp (by simpa using hnd)).1 (he ▸ hk)
      rw [lookupA_cons, if_neg (by simpa using hne)]
      exact ih (List.nodup_cons.mp (by simpa using hnd)).2 hmem'

theorem assoc_value_unique {α : Type} (m : List (String × α)) (k : String)
    (a b : α) (hnd : (m.map (fun kv => kv.1)).Nodup)
    (ha : (k, a) ∈ m) (hb : (k, b) ∈ m) : a = b := by
  have h1 := lookupA_unique m k a hnd ha
  have h2 := lookupA_unique m k b hnd hb
  rw [h1] at h2
  simpa using h2

theorem mkCollisionFinding_type (snapshot : VibeSnapshot)
    (registry : List Library) (e : FlowEdge) (f : ReportFinding)
    (h : mkCollisionFinding snapshot registry e = some f) :
    f.type = .collision := by
  unfold mkCollisionFinding at h
  cases h1 : snapshot.nodes.find? (fun n => n.id == e.source) with
  | none => rw [h1] at h; cases h2 : snapshot.nodes.find? (fun n => n.id == e.target) <;>
      rw [h2] at h <;> simp at h
  | some sn =>
    cases h2 : snapshot.nodes.find? (fun n => n.id == e.target) with
    | none => rw [h1, h2] at h; simp at h
    | some tn =>
      rw [h1, h2] at h
      simp only [Option.some.injEq] at h
      rw [← h]

theorem mkLowScoreFinding_type (snapshot : VibeSnapshot)
    (registry : List Library) (iv : String × VibeNode) (f : ReportFinding)
    (h : mkLowScoreFinding snapshot registry iv = some f) :
    f.type = .lowScore := by
  unfold mkLowScoreFinding at h
  cases h1 : snapshot.nodes.find? (fun n => n.id == iv.1) with
  | none => rw [h1] at h; simp at h
  | some node =>
    rw [h1] at h
    simp only [Option.some.injEq] at h
    rw [← h]

/-- C3: with a well-formed evidence index (keys are the packs' rule ids,
no duplicates), a fix pack's finding appears in `buildReportData`'s output
iff some risk pack that fires against the snapshot's present tool ids
names the fix's rule id in its `fixRuleIds`; in particular no fix finding
appears without a fired risk naming it, even though the fix pack is in the
index. -/
theorem buildReportData_fix_gating (snapshot : VibeSnapshot)
    (registry : List Library) (ts : String)
    (index : List (String × EvidencePack))
    (hkeys : (index.map (fun kp => kp.1)).Nodup)
    (hrid : ∀ kp ∈ index, kp.1 = kp.2.ruleId)
    (k : String) (p : EvidencePack) (hmem : (k, p) ∈ index)
    (hkind : p.kind = .fix) :
    (∃ f ∈ (buildReportData snapshot registry ts (some index)).findings,
        f.type = .fix ∧ f.ruleId = some p.ruleId) ↔
    (∃ kr r, (kr, r) ∈ index ∧ r.kind = .risk ∧
        riskMatches kr (presentToolIds snapshot.nodes) = true ∧
        p.ruleId ∈ r.fixRuleIds.getD []) := by
  have hk : k = p.ruleId := hrid (k, p) hmem
  have hF : (buildReportData snapshot registry ts (some index)).findings =
      (snapshot.edges.filter (fun e =>
          (lookupA snapshot.edgeVibes e.id).map (·.status) ==
            some .COLLISION)).filterMap (mkCollisionFinding snapshot registry) ++
      jsSortBy findingRuleIdCmp
        ((index.filter (fun kp => kp.2.kind == .risk &&
            riskMatches kp.1 (presentToolIds snapshot.nodes))).map
          (fun kp => mkRiskFinding kp.2)) ++
      jsSortBy findingRuleIdCmp
        ((index.filter (fun kp => kp.2.kind == .fix &&
            fixIsReferenced index (presentToolIds snapshot.nodes) kp.1)).map
          (fun kp => mkFixFinding kp.2)) ++
      jsSortBy findingRuleIdCmp
        ((index.filter (fun kp => kp.2.kind == .positive &&
            positiveMatches kp.1 (presentToolIds snapshot.nodes))).map
          (fun kp => mkPositiveFinding kp.2)) ++
      (jsSortBy (fun (a b : String × VibeNode) => a.2.score - b.2.score)
        (snapshot.nodeVibes.filter (fun iv =>
          iv.2.status == .REKT || iv.2.status == .SUS))).filterMap
        (mkLowScoreFinding snapshot registry) := by
    rfl
  constructor
  · rintro ⟨f, hfF, hft, hfr⟩
    rw [hF] at hfF
    simp only [List.append_assoc, List.mem_append] at hfF
    have hf_fix : f ∈ jsSortBy findingRuleIdCmp
        ((index.filter (fun kp => kp.2.kind == .fix &&
            fixIsReferenced index (presentToolIds snapshot.nodes) kp.1)).map
          (fun kp => mkFixFinding kp.2)) := by
      rcases hfF with hc | hr | hx | hp | hl
      · exfalso
        rcases List.mem_filterMap.mp hc with ⟨e, _, he⟩
        rw [mkCollisionFinding_type snapshot registry e f he] at hft
        exact absurd hft (by simp)
      · exfalso
        rcases List.mem_map.mp (List.mem_mergeSort.mp hr) with ⟨kp, _, he⟩
        rw [← he] at hft
        exact absurd hft (by simp [mkRiskFinding])
      · exact hx
      · exfalso
        rcases List.mem_map.mp (List.mem_mergeSort.mp hp) with ⟨kp, _, he⟩
        rw [← he] at hft
        exact absurd hft (by simp [mkPositiveFinding])
      · exfalso
        rcases List.mem_filterMap.mp hl with ⟨iv, _, he⟩
        rw [mkLowScoreFinding_type snapshot registry iv f he] at hft
        exact absurd hft (by simp)
    rcases List.mem_map.mp (List.mem_mergeSort.mp hf_fix) with ⟨kp, hkp, hfe⟩
    have hcond := (List.mem_filter.mp hkp).2
    have hkpmem := (List.mem_filter.mp hkp).1
    simp only [Bool.and_eq_true, beq_iff_eq] at hcond
    -- the fix finding's rule id identifies the source pack as `p`
    have hpk : kp.2 = p := by
      have : kp.2.ruleId = p.ruleId := by
        rw [← hfe] at hfr
        simpa [mkFixFinding] using hfr
      have hkp1 : kp.1 = p.ruleId := by
        rw [hrid kp hkpmem, this]
      apply assoc_value_unique index p.ruleId _ _ hkeys
      · rw [← hkp1]
        exact (by simpa using hkpmem)
      · rw [← hk]
        exact hmem
    have href := hcond.2
    rw [hrid kp hkpmem, hpk] at href
    -- unpack the fired-risk reference
    unfold fixIsReferenced at href
    rcases List.any_eq_true.mp href with ⟨r, hrmem, hpred⟩
    unfold firedRiskRuleIds at hrmem
    rcases List.mem_map.mp hrmem with ⟨krp, hkrp, hkr⟩
    have hcond2 := (List.mem_filter.mp hkrp).2
    have hkrpmem := (List.mem_filter.mp hkrp).1
    simp only [Bool.and_eq_true, beq_iff_eq] at hcond2
    cases hlook : lookupA index r with
    | none => rw [hlook] at hpred; simp at hpred
    | some rp =>
      rw [hlook] at hpred
      have hrpmem := lookupA_mem index r rp hlook
      have hrp_eq : rp = krp.2 := by
        apply assoc_value_unique index r _ _ hkeys hrpmem
        rw [← hkr]
        exact (by simpa using hkrpmem)
      refine ⟨r, rp, hrpmem, ?_, ?_, ?_⟩
      · rw [hrp_eq]
        exact hcond2.1
      · rw [← hkr]
        exact hcond2.2
      · simpa using hpred
  · rintro ⟨kr, r, hrmem, hrkind, hrmatch, hrref⟩
    refine ⟨mkFixFinding p, ?_, rfl, rfl⟩
    rw [hF]
    simp only [List.append_assoc, List.mem_append]
    right; right; left
    apply List.mem_mergeSort.mpr
    apply List.mem_map.mpr
    refine ⟨(k, p), ?_, rfl⟩
    apply List.mem_filter.mpr
    refine ⟨hmem, ?_⟩
    simp only [Bool.and_eq_true, beq_iff_eq]
    refine ⟨hkind, ?_⟩
    unfold fixIsReferenced
    apply List.any_eq_true.mpr
    refine ⟨kr, ?_, ?_⟩
    · unfold firedRiskRuleIds
      apply List.mem_map.mpr
      refine ⟨(kr, r), ?_, rfl⟩
      apply List.mem_filter.mpr
      refine ⟨hrmem, ?_⟩
      simp only [Bool.and_eq_true, beq_iff_eq]
      exact ⟨hrkind, hrmatch⟩
    · rw [lookupA_unique index kr r hkeys hrmem]
      rw [hk]
      simpa using hrref

/-- Witness for C3: in the fixture index, the `nextjs` snapshot fires the
risk pack naming `fix-1`, so the fix finding appears in the report. -/
theorem buildReportData_fix_gating_witness :
    ∃ f ∈ (buildReportData snapNext regAB "T" (some indexRF)).findings,
      f.type = .fix ∧ f.ruleId = some "fix-1" := by
  exact (buildReportData_fix_gating snapNext regAB "T" indexRF (by decide)
    (by decide) "fix-1" packFix (by decide) rfl).mpr
    ⟨"edge-runtime-response-timeout", packRisk, by decide, rfl, by decide,
      by decide⟩

/-! ## C8 — serializer size limits -/

/-- C8: `serializeGraph` returns a described failure naming the limit for
more than 100 nodes, more than 300 edges, or a compressed encoding longer
than 5000 characters, and succeeds within all limits (the embedding is
total, so no exception can escape). -/
theorem serializeGraph_limits (C : JsonCodec) (nodes : List FlowNode)
    (edges : List FlowEdge) :
    (nodes.length > MAX_NODES →
      serializeGraph C nodes edges =
        .err ("Too many nodes (max " ++ toString MAX_NODES ++ ", got " ++
          toString nodes.length ++ ")")) ∧
    (nodes.length ≤ MAX_NODES → edges.length > MAX_EDGES →
      serializeGraph C nodes edges =
        .err ("Too many edges (max " ++ toString MAX_EDGES ++ ", got " ++
          toString edges.length ++ ")")) ∧
    (nodes.length ≤ MAX_NODES → edges.length ≤ MAX_EDGES →
      (C.compress (C.stringify (payloadToJson
        { v := 1, nodes := canonicalizeNodes nodes,
          edges := canonicalizeEdges edges }))).length > MAX_ENCODED_LENGTH →
      serializeGraph C nodes edges =
        .err ("Encoded payload too large (max " ++ toString MAX_ENCODED_LENGTH ++
          " chars, got " ++ toString (C.compress (C.stringify (payloadToJson
            { v := 1, nodes := canonicalizeNodes nodes,
              edges := canonicalizeEdges edges }))).length ++ ")")) ∧
    (nodes.length ≤ MAX_NODES → edges.length ≤ MAX_EDGES →
      (C.compress (C.stringify (payloadToJson
        { v := 1, nodes := canonicalizeNodes nodes,
          edges := canonicalizeEdges edges }))).length ≤ MAX_ENCODED_LENGTH →
      serializeGraph C nodes edges =
        .ok (C.compress (C.stringify (payloadToJson
            { v := 1, nodes := canonicalizeNodes nodes,
              edges := canonicalizeEdges edges })))
          nodes.length edges.length
          (C.stringify (payloadToJson
            { v := 1, nodes := canonicalizeNodes nodes,
              edges := canonicalizeEdges edges })).length
          (C.compress (C.stringify (payloadToJson
            { v := 1, nodes := canonicalizeNodes nodes,
              edges := canonicalizeEdges edges }))).length) := by
  refine ⟨?_, ?_, ?_, ?_⟩
  · intro h
    simp only [serializeGraph]
    rw [if_pos h]
  · intro h1 h2
    simp only [serializeGraph]
    rw [if_neg (by omega), if_pos h2]
  · intro h1 h2 h3
    simp only [serializeGraph]
    rw [if_neg (by omega), if_neg (by omega), if_pos h3]
  · intro h1 h2 h3
    simp only [serializeGraph]
    rw [if_neg (by omega), if_neg (by omega), if_neg (by omega)]

/-- Witness for C8: 101 copies of a node fail with the "Too many nodes"
error; a single node within all limits round-trips to a success result. -/
theorem serializeGraph_limits_witness :
    serializeGraph codecGood (List.replicate 101 goodNode) [] =
      .err "Too many nodes (max 100, got 101)" ∧
    serializeGraph codecGood [goodNode] [] = .ok "J" 1 0 1 1 := by
  constructor
  · have h := (serializeGraph_limits codecGood (List.replicate 101 goodNode) []).1
      (by simp [MAX_NODES])
    rw [h]
    simp only [List.length_replicate]
    decide
  · have h := (serializeGraph_limits codecGood [goodNode] []).2.2.2
      (by decide) (by decide) (by decide)
    rw [h]
    decide

/-! ## C4 — codec round-trip -/

theorem validateNodesAt_map (l : List FlowNode) (i : Nat)
    (h : ∀ n ∈ l, n.id ≠ "" ∧ n.type ≠ "") :
    validateNodesAt (l.map nodeToJson) i = none := by
  induction l generalizing i with
  | nil => rfl
  | cons n rest ih =>
    have cid : jsonStringField (nodeToJson n) "id" = true := by
      have he : jsonStringField (nodeToJson n) "id" = decide (n.id ≠ "") := rfl
      simp [he, (h n (by simp)).1]
    have ctype : jsonStringField (nodeToJson n) "type" = true := by
      have he : jsonStringField (nodeToJson n) "type" = decide (n.type ≠ "") := rfl
      simp [he, (h n (by simp)).2]
    have cpos : (((nodeToJson n).getField "position").map JVal.isObjecty).getD false &&
        (((nodeToJson n).getField "position").map JVal.truthy).getD false = true := rfl
    have cxy : jsonNumericXY (nodeToJson n) = true := rfl
    have cdata : (((nodeToJson n).getField "data").map JVal.isObjecty).getD false &&
        (((nodeToJson n).getField "data").map JVal.truthy).getD false = true := rfl
    simp only [List.map_cons, validateNodesAt, cid, ctype, cpos, cxy, cdata,
      Bool.not_true, Bool.false_eq_true, if_false]
    exact ih (i + 1) (fun n' hn' => h n' (by simp [hn']))

theorem validateEdgesAt_map (l : List FlowEdge) (i : Nat)
    (h : ∀ e ∈ l, e.id ≠ "" ∧ e.source ≠ "" ∧ e.target ≠ "") :
    validateEdgesAt (l.map edgeToJson) i = none := by
  induction l generalizing i with
  | nil => rfl
  | cons e rest ih =>
    have cid : jsonStringField (edgeToJson e) "id" = true := by
      have he : jsonStringField (edgeToJson e) "id" = decide (e.id ≠ "") := rfl
      simp [he, (h e (by simp)).1]
    have csrc : jsonStringField (edgeToJson e) "source" = true := by
      have he : jsonStringField (edgeToJson e) "source" = decide (e.source ≠ "") := rfl
      simp [he, (h e (by simp)).2.1]
    have ctgt : jsonStringField (edgeToJson e) "target" = true := by
      have he : jsonStringField (edgeToJson e) "target" = decide (e.target ≠ "") := rfl
      simp [he, (h e (by simp)).2.2]
    simp only [List.map_cons, validateEdgesAt, cid, csrc, ctgt,
      Bool.not_true, Bool.false_eq_true, if_false]
    exact ih (i + 1) (fun e' he' => h e' (by simp [he']))

theorem validatePayload_payloadToJson (p : SharePayload) (hv : p.v = 1)
    (hn : p.nodes.length ≤ MAX_NODES) (he : p.edges.length ≤ MAX_EDGES)
    (hwfn : ∀ n ∈ p.nodes, n.id ≠ "" ∧ n.type ≠ "")
    (hwfe : ∀ e ∈ p.edges, e.id ≠ "" ∧ e.source ≠ "" ∧ e.target ≠ "") :
    validatePayload (payloadToJson p) = none := by
  have hvf : (payloadToJson p).getField "v" = some (.jnum p.v) := rfl
  have hgr : (payloadToJson p).getField "graph" =
      some (.jobj [("nodes", .jarr (p.nodes.map nodeToJson)),
        ("edges", .jarr (p.edges.map edgeToJson))]) := rfl
  simp only [validatePayload, hvf, hgr, hv]
  simp only [JVal.truthy, JVal.isObjecty, Bool.and_true, Bool.not_true,
    Bool.true_and, Bool.not_false, Bool.false_eq_true, if_false, beq_self_eq_true]
  have hnlen : ¬(p.nodes.map nodeToJson).length > MAX_NODES := by
    simpa using hn
  have helen : ¬(p.edges.map edgeToJson).length > MAX_EDGES := by
    simpa using he
  have hng : (JVal.jobj [("nodes", JVal.jarr (p.nodes.map nodeToJson)),
      ("edges", JVal.jarr (p.edges.map edgeToJson))]).getField "nodes" =
      some (.jarr (p.nodes.map nodeToJson)) := rfl
  have heg : (JVal.jobj [("nodes", JVal.jarr (p.nodes.map nodeToJson)),
      ("edges", JVal.jarr (p.edges.map edgeToJson))]).getField "edges" =
      some (.jarr (p.edges.map edgeToJson)) := rfl
  simp only [hng, heg]
  rw [if_neg hnlen, if_neg helen]
  rw [validateNodesAt_map p.nodes 0 hwfn]
  exact validateEdgesAt_map p.edges 0 hwfe

theorem nodeFromJson_nodeToJson (n : FlowNode) :
    nodeFromJson (nodeToJson n) = n := by
  obtain ⟨id, type, ⟨x, y⟩, ⟨t, l, c⟩⟩ := n
  cases t <;> cases l <;> cases c <;> rfl

theorem edgeFromJson_edgeToJson (e : FlowEdge) :
    edgeFromJson (edgeToJson e) = e := by
  obtain ⟨id, source, target, t⟩ := e
  cases t <;> rfl

theorem payloadFromJson_payloadToJson (p : SharePayload) :
    payloadFromJson (payloadToJson p) = p := by
  obtain ⟨v, nodes, edges⟩ := p
  simp only [payloadFromJson, payloadToJson, JVal.getField, lookupA]
  simp [Function.comp_def, nodeFromJson_nodeToJson, edgeFromJson_edgeToJson]

/-- C4 amended: for inputs within the size limits whose nodes and edges
are structurally valid (non-empty node id and type, non-empty edge id,
source and target) and for an external JSON/LZ-string layer that
round-trips on the canonical payload (with non-empty intermediate
strings and an encoding within the length limit), `serializeGraph`
succeeds and `deserializeGraph` of the encoding succeeds with exactly the
canonicalized payload — nodes sorted by id, edges by (source, target, id).
The unamended claim fails for structurally invalid nodes (e.g. an empty
id), which serialize successfully but are rejected by decode validation. -/
theorem serialize_deserialize_roundtrip (C : JsonCodec) (nodes : List FlowNode)
    (edges : List FlowEdge) (P : SharePayload)
    (hP : P = { v := 1, nodes := canonicalizeNodes nodes,
                edges := canonicalizeEdges edges })
    (hn : nodes.length ≤ MAX_NODES) (he : edges.length ≤ MAX_EDGES)
    (hwfn : ∀ n ∈ nodes, n.id ≠ "" ∧ n.type ≠ "")
    (hwfe : ∀ e ∈ edges, e.id ≠ "" ∧ e.source ≠ "" ∧ e.target ≠ "")
    (hjson : C.parse (C.stringify (payloadToJson P)) = .ok (payloadToJson P))
    (hcomp : C.decompress (C.compress (C.stringify (payloadToJson P))) =
      some (C.stringify (payloadToJson P)))
    (hne : C.compress (C.stringify (payloadToJson P)) ≠ "")
    (hjne : C.stringify (payloadToJson P) ≠ "")
    (hlen : (C.compress (C.stringify (payloadToJson P))).length ≤
      MAX_ENCODED_LENGTH) :
    serializeGraph C nodes edges =
      .ok (C.compress (C.stringify (payloadToJson P))) nodes.length edges.length
        (C.stringify (payloadToJson P)).length
        (C.compress (C.stringify (payloadToJson P))).length ∧
    deserializeGraph C (C.compress (C.stringify (payloadToJson P))) = .ok P := by
  have hwfn' : ∀ n ∈ P.nodes, n.id ≠ "" ∧ n.type ≠ "" := by
    intro n hn'
    rw [hP] at hn'
    exact hwfn n (List.mem_mergeSort.mp hn')
  have hwfe' : ∀ e ∈ P.edges, e.id ≠ "" ∧ e.source ≠ "" ∧ e.target ≠ "" := by
    intro e he'
    rw [hP] at he'
    exact hwfe e (List.mem_mergeSort.mp he')
  have hnlen : P.nodes.length ≤ MAX_NODES := by
    rw [hP]
    simpa [canonicalizeNodes, jsSortBy] using hn
  have helen : P.edges.length ≤ MAX_EDGES := by
    rw [hP]
    simpa [canonicalizeEdges, jsSortBy] using he
  have hvalid : validatePayload (payloadToJson P) = none :=
    validatePayload_payloadToJson P (by rw [hP]) hnlen helen hwfn' hwfe'
  constructor
  · have h := (serializeGraph_limits C nodes edges).2.2.2 hn he
      (by rw [← hP]; exact hlen)
    rw [← hP] at h
    exact h
  · simp only [deserializeGraph]
    rw [if_neg (by simpa using hne)]
    rw [if_neg (by omega)]
    rw [hcomp]
    simp only
    rw [if_neg (by simpa using hjne)]
    rw [hjson]
    simp only
    rw [hvalid]
    simp only
    rw [payloadFromJson_payloadToJson]

/-- Witness for C4 (amended): the single-good-node graph round-trips to
its canonical payload through the stub codec. -/
theorem serialize_deserialize_roundtrip_witness :
    serializeGraph codecGood [goodNode] [] = .ok "J" 1 0 1 1 ∧
    deserializeGraph codecGood "J" = .ok { v := 1, nodes := [goodNode], edges := [] } := by
  have h := serialize_deserialize_roundtrip codecGood [goodNode] []
    { v := 1, nodes := [goodNode], edges := [] }
    (by simp [canonicalizeNodes, canonicalizeEdges, jsSortBy]) (by decide)
    (by decide) (by decide) (by decide) rfl rfl (by decide) (by decide)
    (by decide)
  refine ⟨?_, h.2⟩
  rw [h.1]
  rfl

/-- C4 counterexample: a node with an empty id serializes successfully,
the external layer round-trips its payload faithfully, yet decoding fails
structural validation — so decode ∘ encode does not yield the canonical
graph for every input serializeGraph accepts. -/
theorem roundtrip_fails_on_empty_id :
    serializeGraph codecBad [badNode] [] = .ok "J" 1 0 1 1 ∧
    deserializeGraph codecBad "J" =
      .err "Invalid node at index 0: missing or invalid id" ∧
    codecBad.parse (codecBad.stringify pjBad) = .ok pjBad ∧
    codecBad.decompress (codecBad.compress (codecBad.stringify pjBad)) =
      some (codecBad.stringify pjBad) := by
  refine ⟨by decide, by decide, rfl, rfl⟩

/-! ## C9 — URL canonicalization idempotence -/

theorem tl_upper (c : Char) (h : 65 ≤ c.toNat ∧ c.toNat ≤ 90) :
    (Char.toLower c).toNat = c.toNat + 32 := by
  unfold Char.toLower
  rw [if_pos h]
  have hvalid : (c.toNat + 32).isValidChar := Or.inl (by omega)
  unfold Char.ofNat
  rw [dif_pos hvalid]
  simp [Char.ofNatAux, Char.toNat, UInt32.toNat, BitVec.toNat_ofNatLt]

theorem tl_other (c : Char) (h : ¬(65 ≤ c.toNat ∧ c.toNat ≤ 90)) :
    Char.toLower c = c := by
  unfold Char.toLower
  rw [if_neg h]

theorem toLower_idem (c : Char) :
    Char.toLower (Char.toLower c) = Char.toLower c := by
  by_cases h : 65 ≤ c.toNat ∧ c.toNat ≤ 90
  · have h1 := tl_upper c h
    exact tl_other (Char.toLower c) (by omega)
  · rw [tl_other c h]
    exact tl_other c h

theorem beq_false_of_toNat_ne (c d : Char) (h : c.toNat ≠ d.toNat) :
    (c == d) = false :=
  beq_eq_false_iff_ne.mpr (fun he => h (congrArg Char.toNat he))

theorem toLower_beq_low (c d : Char) (hd : d.toNat < 65) :
    (Char.toLower c == d) = (c == d) := by
  by_cases h : 65 ≤ c.toNat ∧ c.toNat ≤ 90
  · have h1 := tl_upper c h
    rw [beq_false_of_toNat_ne _ _ (by omega),
      beq_false_of_toNat_ne c d (by omega)]
  · rw [tl_other c h]

theorem toLower_urlDelim (c : Char) : urlDelim (Char.toLower c) = urlDelim c := by
  unfold urlDelim
  rw [toLower_beq_low c '/' (by decide), toLower_beq_low c '?' (by decide),
    toLower_beq_low c '#' (by decide)]

theorem toLower_bne_colon (c : Char) :
    (Char.toLower c != ':') = (c != ':') := by
  unfold bne
  rw [toLower_beq_low c ':' (by decide)]

theorem isDigit_eq (c : Char) :
    c.isDigit = (decide (48 ≤ c.toNat) && decide (c.toNat ≤ 57)) := rfl

theorem toLower_isDigit (c : Char) :
    (Char.toLower c).isDigit = c.isDigit := by
  by_cases h : 65 ≤ c.toNat ∧ c.toNat ≤ 90
  · have h1 := tl_upper c h
    rw [isDigit_eq, isDigit_eq, h1]
    rw [decide_eq_false (by omega : ¬(c.toNat + 32 ≤ 57)),
      decide_eq_false (by omega : ¬(c.toNat ≤ 57))]
    simp
  · rw [tl_other c h]

theorem toLower_digit_fix (c : Char) (h : c.isDigit = true) :
    Char.toLower c = c := by
  rw [isDigit_eq] at h
  simp only [Bool.and_eq_true, decide_eq_true_eq] at h
  exact tl_other c (by omega)

theorem jsToLower_idem (l : List Char) :
    jsToLower (jsToLower l) = jsToLower l := by
  simp [jsToLower, List.map_map, Function.comp_def, toLower_idem]

theorem jsToLower_append (a b : List Char) :
    jsToLower (a ++ b) = jsToLower a ++ jsToLower b := by
  simp [jsToLower]

theorem jsToLower_digits_fix (l : List Char) (h : l.all Char.isDigit = true) :
    jsToLower l = l := by
  unfold jsToLower
  induction l with
  | nil => rfl
  | cons c cs ih =>
    simp only [List.all_cons, Bool.and_eq_true] at h
    simp [toLower_digit_fix c h.1, ih h.2]

theorem takeWhile_jsToLower (p : Char → Bool) (l : List Char)
    (hp : ∀ c, p (Char.toLower c) = p c) :
    (jsToLower l).takeWhile p = jsToLower (l.takeWhile p) := by
  unfold jsToLower
  rw [List.takeWhile_map]
  congr 1
  have : (p ∘ Char.toLower) = p := funext hp
  rw [this]

theorem dropWhile_jsToLower (p : Char → Bool) (l : List Char)
    (hp : ∀ c, p (Char.toLower c) = p c) :
    (jsToLower l).dropWhile p = jsToLower (l.dropWhile p) := by
  unfold jsToLower
  rw [List.dropWhile_map]
  congr 1
  have : (p ∘ Char.toLower) = p := funext hp
  rw [this]

theorem isEmpty_jsToLower (l : List Char) :
    (jsToLower l).isEmpty = l.isEmpty := by
  cases l <;> rfl

theorem all_isDigit_jsToLower (l : List Char) :
    (jsToLower l).all Char.isDigit = l.all Char.isDigit := by
  unfold jsToLower
  induction l with
  | nil => rfl
  | cons c cs ih => simp [toLower_isDigit, ih]

theorem takeWhile_append_sat (p : Char → Bool) (a b : List Char)
    (ha : ∀ c ∈ a, p c = true) (hb : ∀ x, b.head? = some x → p x = false) :
    (a ++ b).takeWhile p = a ∧ (a ++ b).dropWhile p = b := by
  induction a with
  | nil =>
    cases b with
    | nil => simp
    | cons x xs =>
      have hx := hb x rfl
      simp [List.takeWhile_cons, List.dropWhile_cons, hx]
  | cons c cs ih =>
    have hc := ha c (by simp)
    have hrec := ih (fun c' h' => ha c' (by simp [h']))
    simp [List.takeWhile_cons, List.dropWhile_cons, hc, hrec.1, hrec.2]

theorem takeWhile_all_sat (p : Char → Bool) (l : List Char)
    (h : ∀ c ∈ l, p c = true) : l.takeWhile p = l ∧ l.dropWhile p = [] := by
  have := takeWhile_append_sat p l [] h (by intro x hx; simp at hx)
  simpa using this

theorem dropWhile_head_false (p : Char → Bool) (l : List Char) (x : Char)
    (xs : List Char) (h : l.dropWhile p = x :: xs) : p x = false := by
  induction l with
  | nil => simp at h
  | cons c cs ih =>
    rw [List.dropWhile_cons] at h
    by_cases pc : p c = true
    · rw [if_pos pc] at h
      exact ih h
    · rw [if_neg pc] at h
      have : c = x := by
        injection h with h1 _
      rw [← this]
      exact Bool.not_eq_true _ ▸ pc

theorem takeWhile_head (p : Char → Bool) (l : List Char) (x : Char)
    (xs : List Char) (h : l.takeWhile p = x :: xs) :
    l.head? = some x ∧ p x = true := by
  induction l with
  | nil => simp at h
  | cons c cs _ =>
    rw [List.takeWhile_cons] at h
    by_cases pc : p c = true
    · rw [if_pos pc] at h
      have : c = x := by injection h with h1 _
      subst this
      exact ⟨rfl, pc⟩
    · rw [if_neg pc] at h
      simp at h

theorem drop_append_cons (a : List Char) (x : Char) (b : List Char) :
    (a ++ x :: b).drop (a.length + 1) = b := by
  induction a with
  | nil => simp
  | cons c cs ih => simp [ih]

theorem isPrefixOf_append_self (l t : List Char) : l.isPrefixOf (l ++ t) = true := by
  simp [List.isPrefixOf_iff_prefix]

theorem digit_not_delim (c : Char) (h : c.isDigit = true) : urlDelim c = false := by
  rw [isDigit_eq] at h
  simp only [Bool.and_eq_true, decide_eq_true_eq] at h
  unfold urlDelim
  rw [beq_false_of_toNat_ne c '/' (by omega : c.toNat ≠ 47),
    beq_false_of_toNat_ne c '?' (by omega : c.toNat ≠ 63),
    beq_false_of_toNat_ne c '#' (by omega : c.toNat ≠ 35)]
  rfl

theorem parseScheme_https (t : List Char) :
    parseScheme ("https://".data ++ t) = some ("https:".data, t) := by
  unfold parseScheme
  rw [if_pos (isPrefixOf_append_self _ t)]
  have hd : ("https://".data ++ t).drop 8 = t := by
    have hl : "https://".data.length = 8 := rfl
    rw [← hl, List.drop_left]
  rw [hd]

theorem parseScheme_http (t : List Char) :
    parseScheme ("http://".data ++ t) = some ("http:".data, t) := by
  unfold parseScheme
  have hn : ("https://".data.isPrefixOf ("http://".data ++ t)) = false := rfl
  rw [if_neg (by simp [hn]), if_pos (isPrefixOf_append_self _ t)]
  have hd : ("http://".data ++ t).drop 7 = t := by
    have hl : "http://".data.length = 7 := rfl
    rw [← hl, List.drop_left]
  rw [hd]

theorem urlToString_eq (p : UrlParts) (hp : p.protocol = "https:".data)
    (hs : p.search = []) (hh : p.hash = []) :
    urlToStringChars p = "https://".data ++
      (p.hostname ++ (match p.port with | some ds => ':' :: ds | none => []) ++
        p.pathname) := by
  unfold urlToStringChars
  rw [hp, hs, hh]
  simp only [List.append_nil, List.append_assoc]
  rw [← List.append_assoc "https:".data "//".data]
  rfl

theorem parseRest_canon (p : UrlParts) (h : wfCanon p) :
    parseRest "https:".data
      (p.hostname ++ (match p.port with | some ds => ':' :: ds | none => []) ++
        p.pathname) = some p := by
  obtain ⟨proto, host, port, pathn, search, hsh⟩ := p
  obtain ⟨hp, hne, hhost, hport, hhead, hpchars, hs, hh⟩ := h
  simp only at hp hne hhost hport hhead hpchars hs hh
  subst hp
  subst hs
  subst hh
  obtain ⟨x, t, hpe⟩ : ∃ x t, pathn = x :: t := by
    cases hpn : pathn with
    | nil => rw [hpn] at hhead; simp at hhead
    | cons x t => exact ⟨x, t, rfl⟩
  have hx : x = '/' := by
    rw [hpe] at hhead
    simpa using hhead
  have hpne : pathn.isEmpty = false := by
    rw [hpe]
    rfl
  have hpathall := takeWhile_all_sat (fun c => !(c == '?' || c == '#')) pathn
    (by
      intro c hc
      have := hpchars c hc
      simp [this.1, this.2])
  have hpathhead : ∀ y, pathn.head? = some y → (fun c => !urlDelim c) y = false := by
    intro y hy
    rw [hpe] at hy
    have hyx : y = x := by simpa using hy.symm
    rw [hyx, hx]
    rfl
  cases port with
  | none =>
    have hsplit := takeWhile_append_sat (fun c => !urlDelim c) host pathn
      (by
        intro c hc
        simp [(hhost c hc).1])
      hpathhead
    have hhostw := takeWhile_all_sat (fun c => c != ':') host
      (by
        intro c hc
        simp [bne, (hhost c hc).2])
    simp only [parseRest, List.append_nil]
    rw [hsplit.1, hsplit.2]
    rw [hhostw.1]
    rw [if_neg (by simp [List.isEmpty_iff, hne])]
    have hp1 : decide (host.length < host.length) = false := by simp
    rw [hp1]
    simp only [Bool.false_and, Bool.false_eq_true, if_false]
    rw [hpathall.1, hpathall.2]
    simp only [List.takeWhile_nil, List.dropWhile_nil]
    rw [if_neg (by simp [hpne])]
  | some ds =>
    have hds := hport ds rfl
    have hle : digitsToNat ds ≤ 65535 := hds.2.2.1
    have hne443 : digitsToNat ds ≠ 443 := hds.2.2.2
    have hsplit := takeWhile_append_sat (fun c => !urlDelim c)
      (host ++ ':' :: ds) pathn
      (by
        intro c hc
        rcases List.mem_append.mp hc with hc | hc
        · simp [(hhost c hc).1]
        · rcases List.mem_cons.mp hc with rfl | hc
          · rfl
          · have hdig : c.isDigit = true :=
              List.all_eq_true.mp hds.2.1 c hc
            simp [digit_not_delim c hdig])
      hpathhead
    have hhostw := takeWhile_append_sat (fun c => c != ':') host (':' :: ds)
      (by
        intro c hc
        simp [bne, (hhost c hc).2])
      (by
        intro y hy
        have hy2 : y = ':' := by simpa using hy.symm
        rw [hy2]
        rfl)
    simp only [parseRest]
    rw [hsplit.1, hsplit.2]
    rw [hhostw.1]
    rw [if_neg (by simp [List.isEmpty_iff, hne])]
    have hlen : decide (host.length < (host ++ ':' :: ds).length) = true := by
      simp
    rw [hlen]
    have hdrop : (host ++ ':' :: ds).drop (host.length + 1) = ds :=
      drop_append_cons _ _ _
    rw [hdrop]
    rw [hds.2.1]
    have hdse : ds.isEmpty = false := by
      cases hde : ds with
      | nil => exact absurd hde hds.1
      | cons a b => rfl
    rw [hdse]
    have hbig : decide (digitsToNat ds > 65535) = false := by
      simp only [decide_eq_false_iff_not]
      omega
    rw [hbig]
    have hdef : decide (digitsToNat ds ≠ defaultPort "https:".data) = true := by
      have hdp : defaultPort "https:".data = 443 := rfl
      rw [hdp]
      simpa using hne443
    rw [hdef]
    simp only [Bool.not_true, Bool.and_false, Bool.not_false, Bool.true_and,
      Bool.and_true, Bool.false_eq_true, if_false, Bool.and_self, if_true]
    rw [hpathall.1, hpathall.2]
    simp only [List.takeWhile_nil, List.dropWhile_nil]
    rw [if_neg (by simp [hpne])]

theorem canonChars_eq_some (u : List Char) (parsed : UrlParts)
    (h : parseUrlChars (coerceScheme u) = some parsed) :
    canonChars u = urlToStringChars (canonRecord parsed) := by
  simp only [canonChars]
  rw [h]
  rfl

theorem canonChars_eq_none (u : List Char)
    (h : parseUrlChars (coerceScheme u) = none) :
    canonChars u = jsReplaceHttp (jsToLower (coerceScheme u)) := by
  simp only [canonChars]
  rw [h]

theorem coerceScheme_https_fix (t : List Char) :
    coerceScheme ("https://".data ++ t) = "https://".data ++ t := by
  unfold coerceScheme
  rw [isPrefixOf_append_self "https://".data t]
  simp

theorem coerceScheme_shape (u : List Char) :
    (∃ r, coerceScheme u = "https://".data ++ r) ∨
    (∃ r, coerceScheme u = "http://".data ++ r) := by
  unfold coerceScheme
  by_cases h1 : "http://".data.isPrefixOf u = true
  · right
    obtain ⟨r, hr⟩ := List.isPrefixOf_iff_prefix.mp h1
    rw [h1]
    simp only [Bool.not_true, Bool.false_and, Bool.false_eq_true, if_false]
    exact ⟨r, hr.symm⟩
  · by_cases h2 : "https://".data.isPrefixOf u = true
    · left
      obtain ⟨r, hr⟩ := List.isPrefixOf_iff_prefix.mp h2
      rw [h2]
      simp only [Bool.not_true, Bool.and_false, Bool.false_eq_true, if_false]
      exact ⟨r, hr.symm⟩
    · left
      rw [Bool.not_eq_true] at h1 h2
      rw [h1, h2]
      simp only [Bool.not_false, Bool.and_self, if_true]
      exact ⟨u, rfl⟩

theorem jsReplaceHttp_https_fix (t : List Char) :
    jsReplaceHttp ("https://".data ++ t) = "https://".data ++ t := by
  unfold jsReplaceHttp
  have hn : "http:".data.isPrefixOf ("https://".data ++ t) = false := rfl
  rw [hn]
  simp

theorem jsReplaceHttp_http (t : List Char) :
    jsReplaceHttp ("http://".data ++ t) = "https://".data ++ t := by
  unfold jsReplaceHttp
  have hy : "http:".data.isPrefixOf ("http://".data ++ t) = true := rfl
  rw [hy]
  simp only [if_true]
  rfl

theorem jsToLower_https_prefix (t : List Char) :
    jsToLower ("https://".data ++ t) = "https://".data ++ jsToLower t := by
  rw [jsToLower_append]
  rfl

theorem jsToLower_http_prefix (t : List Char) :
    jsToLower ("http://".data ++ t) = "http://".data ++ jsToLower t := by
  rw [jsToLower_append]
  rfl

theorem canonChars_fallback (s : List Char) (hls : jsToLower s = s)
    (hn : parseRest "https:".data s = none) :
    canonChars ("https://".data ++ s) = "https://".data ++ s := by
  have hcs := coerceScheme_https_fix s
  have hpn : parseUrlChars (coerceScheme ("https://".data ++ s)) = none := by
    rw [hcs]
    unfold parseUrlChars
    rw [parseScheme_https]
    exact hn
  rw [canonChars_eq_none _ hpn, hcs, jsToLower_https_prefix, hls,
    jsReplaceHttp_https_fix]

theorem strip_head_chars (l : List Char) (hh : l.head? = some '/')
    (hc : ∀ c ∈ l, (c == '?') = false ∧ (c == '#') = false) :
    (stripTrailingSlash l).head? = some '/' ∧
    ∀ c ∈ stripTrailingSlash l, (c == '?') = false ∧ (c == '#') = false := by
  unfold stripTrailingSlash
  by_cases hcond : (decide (l ≠ ['/']) && (l.getLast? == some '/')) = true
  · rw [if_pos hcond]
    obtain ⟨x, t, rfl⟩ : ∃ x t, l = x :: t := by
      cases l with
      | nil => simp at hh
      | cons x t => exact ⟨x, t, rfl⟩
    have hx : x = '/' := by simpa using hh
    have ht : t ≠ [] := by
      intro he
      subst he hx
      simp at hcond
    rw [List.dropLast_cons_of_ne_nil ht]
    refine ⟨by simp [hx], ?_⟩
    intro c hcm
    rcases List.mem_cons.mp hcm with rfl | hcm2
    · exact hc c (List.mem_cons_self c t)
    · exact hc c (List.mem_cons_of_mem x (List.mem_of_mem_dropLast hcm2))
  · rw [if_neg hcond]
    exact ⟨hh, hc⟩

theorem jsToLower_length (l : List Char) : (jsToLower l).length = l.length :=
  List.length_map l Char.toLower

theorem jsToLower_drop (l : List Char) (n : Nat) :
    (jsToLower l).drop n = jsToLower (l.drop n) :=
  (List.map_drop Char.toLower l n).symm

theorem parseRest_none_map (proto proto' r : List Char)
    (h : parseRest proto r = none) :
    parseRest proto' (jsToLower r) = none := by
  have hA : (jsToLower r).takeWhile (fun c => !urlDelim c)
      = jsToLower (r.takeWhile (fun c => !urlDelim c)) :=
    takeWhile_jsToLower _ r (fun c => by rw [toLower_urlDelim])
  have hH : (jsToLower (r.takeWhile (fun c => !urlDelim c))).takeWhile
        (fun c => c != ':')
      = jsToLower ((r.takeWhile (fun c => !urlDelim c)).takeWhile
        (fun c => c != ':')) :=
    takeWhile_jsToLower _ _ (fun c => toLower_bne_colon c)
  simp only [parseRest] at h ⊢
  rw [hA, hH]
  simp only [jsToLower_length, jsToLower_drop, isEmpty_jsToLower,
    all_isDigit_jsToLower]
  set A := r.takeWhile (fun c => !urlDelim c) with hAd
  set host := A.takeWhile (fun c => c != ':') with hHd
  set portStr := A.drop (host.length + 1) with hPd
  by_cases g1 : host.isEmpty = true
  · rw [if_pos g1]
  · rw [if_neg g1] at h ⊢
    by_cases g2 : (decide (host.length < A.length) && !portStr.all Char.isDigit)
        = true
    · rw [if_pos g2]
    · rw [if_neg g2] at h ⊢
      by_cases g3 : (decide (host.length < A.length) && !portStr.isEmpty &&
          decide (digitsToNat portStr > 65535)) = true
      · have hasP : decide (host.length < A.length) = true := by
          simp only [Bool.and_eq_true] at g3
          exact g3.1.1
        have hall : portStr.all Char.isDigit = true := by
          cases hall : portStr.all Char.isDigit
          · exact absurd (by rw [hasP, hall]; rfl) g2
          · rfl
        rw [jsToLower_digits_fix portStr hall]
        rw [if_pos g3]
      · rw [if_neg g3] at h
        exact absurd h (by simp)

theorem wfCanon_canonOut (proto rest : List Char) (q : UrlParts)
    (hq : parseRest proto rest = some q) : wfCanon (canonRecord q) := by
  simp only [parseRest] at hq
  set A := rest.takeWhile (fun c => !urlDelim c) with hAd
  set tail := rest.dropWhile (fun c => !urlDelim c) with hTd
  set host := A.takeWhile (fun c => c != ':') with hHd
  set portStr := A.drop (host.length + 1) with hPd
  set path := tail.takeWhile (fun c => !(c == '?' || c == '#')) with hPathd
  by_cases g1 : host.isEmpty = true
  · rw [if_pos g1] at hq
    exact absurd hq (by simp)
  · rw [if_neg g1] at hq
    by_cases g2 : (decide (host.length < A.length) && !portStr.all Char.isDigit)
        = true
    · rw [if_pos g2] at hq
      exact absurd hq (by simp)
    · rw [if_neg g2] at hq
      by_cases g3 : (decide (host.length < A.length) && !portStr.isEmpty &&
          decide (digitsToNat portStr > 65535)) = true
      · rw [if_pos g3] at hq
        exact absurd hq (by simp)
      · rw [if_neg g3] at hq
        have hRq := Option.some.inj hq
        subst hRq
        have hostNe : host ≠ [] := fun he => g1 (by rw [he]; rfl)
        have hostChars : ∀ c ∈ host, urlDelim c = false ∧ (c == ':') = false := by
          intro c hc
          rw [hHd] at hc
          have h1 := List.mem_takeWhile_imp hc
          have h2 : c ∈ A := List.takeWhile_subset _ hc
          rw [hAd] at h2
          have h3 := List.mem_takeWhile_imp h2
          refine ⟨by simpa using h3, ?_⟩
          simp only [bne] at h1
          simpa using h1
        have pathHead : (if path.isEmpty then ['/'] else path).head? = some '/' := by
          by_cases hpe : path.isEmpty = true
          · rw [if_pos hpe]
            rfl
          · rw [if_neg hpe]
            obtain ⟨y, ys, hyy⟩ : ∃ y ys, path = y :: ys := by
              cases hp2 : path with
              | nil => rw [hp2] at hpe; exact absurd rfl hpe
              | cons y ys => exact ⟨y, ys, rfl⟩
            have hth : tail.head? = some y ∧
                (fun c => !(c == '?' || c == '#')) y = true := by
              apply takeWhile_head _ tail y ys
              rw [← hPathd]
              exact hyy
            obtain ⟨tl2, htl2⟩ : ∃ tl2, tail = y :: tl2 := by
              cases ht2 : tail with
              | nil => rw [ht2] at hth; simp at hth
              | cons a b =>
                rw [ht2] at hth
                have hay : a = y := by simpa using hth.1
                subst hay
                exact ⟨b, rfl⟩
            have hdel : (fun c => !urlDelim c) y = false := by
              apply dropWhile_head_false (fun c => !urlDelim c) rest y tl2
              rw [← hTd]
              exact htl2
            have h5 : (y == '?' || y == '#') = false := by simpa using hth.2
            have hyq := Bool.or_eq_false_iff.mp h5
            have hyd : urlDelim y = true := by simpa using hdel
            have hys : (y == '/') = true := by
              unfold urlDelim at hyd
              rw [hyq.1, hyq.2] at hyd
              simpa using hyd
            have hy : y = '/' := by simpa using hys
            rw [hyy]
            simp [hy]
        have pathChars : ∀ c ∈ (if path.isEmpty then ['/'] else path),
            (c == '?') = false ∧ (c == '#') = false := by
          intro c hc
          by_cases hpe : path.isEmpty = true
          · rw [if_pos hpe] at hc
            have hcs : c = '/' := by simpa using hc
            subst hcs
            exact ⟨by decide, by decide⟩
          · rw [if_neg hpe] at hc
            rw [hPathd] at hc
            have h5 := List.mem_takeWhile_imp hc
            have h6 : (c == '?' || c == '#') = false := by simpa using h5
            exact Bool.or_eq_false_iff.mp h6
        have hstr := strip_head_chars _ pathHead pathChars
        simp only [wfCanon, canonRecord]
        refine ⟨trivial, ?_, ?_, ?_, hstr.1, hstr.2, trivial, trivial⟩
        · cases hh2 : host with
          | nil => exact absurd hh2 hostNe
          | cons a b => simp [jsToLower]
        · intro c hc
          rcases List.mem_map.mp hc with ⟨c0, hc0, rfl⟩
          have hcc := hostChars c0 hc0
          exact ⟨by rw [toLower_urlDelim]; exact hcc.1,
            by rw [toLower_beq_low c0 ':' (by decide)]; exact hcc.2⟩
        · intro ds hds
          by_cases hpc : (decide (host.length < A.length) && !portStr.isEmpty &&
              decide (digitsToNat portStr ≠ defaultPort proto)) = true
          · rw [if_pos hpc] at hds
            by_cases h443 : digitsToNat portStr = 443
            · rw [if_pos (by simp [h443] : Option.map digitsToNat (some portStr)
                = some 443)] at hds
              exact absurd hds (by simp)
            · have hcne : ¬(Option.map digitsToNat (some portStr) = some 443) := by
                intro hcc
                exact h443 (Option.some.inj hcc)
              rw [if_neg hcne] at hds
              have hdsp : portStr = ds := Option.some.inj hds
              simp only [Bool.and_eq_true] at hpc
              refine ⟨?_, ?_, ?_, by rw [← hdsp]; exact h443⟩
              · intro he
                rw [← hdsp] at he
                rw [he] at hpc
                simp at hpc
              · rw [← hdsp]
                cases hall : portStr.all Char.isDigit
                · exact absurd (by rw [hpc.1.1, hall]; rfl) g2
                · rfl
              · rw [← hdsp]
                by_contra hgt
                exact g3 (by
                  rw [hpc.1.1, hpc.1.2,
                    decide_eq_true (by omega : digitsToNat portStr > 65535)]
                  rfl)
          · rw [if_neg hpc] at hds
            simp at hds

theorem canonChars_idem (u : List Char)
    (h : ∀ p, parseUrlChars (coerceScheme u) = some p →
      stripTrailingSlash (stripTrailingSlash p.pathname)
        = stripTrailingSlash p.pathname) :
    canonChars (canonChars u) = canonChars u := by
  cases hp : parseUrlChars (coerceScheme u) with
  | some parsed =>
    obtain ⟨pr, hrest⟩ : ∃ pr : List Char × List Char,
        parseRest pr.1 pr.2 = some parsed := by
      unfold parseUrlChars at hp
      cases hps : parseScheme (coerceScheme u) with
      | none => rw [hps] at hp; exact absurd hp (by simp)
      | some pr => rw [hps] at hp; exact ⟨pr, hp⟩
    have hwf : wfCanon (canonRecord parsed) :=
      wfCanon_canonOut pr.1 pr.2 parsed hrest
    have h1 := canonChars_eq_some u parsed hp
    have hser := urlToString_eq (canonRecord parsed) rfl rfl rfl
    have hfix : ∀ s, parseRest "https:".data s = some (canonRecord parsed) →
        canonChars ("https://".data ++ s)
          = urlToStringChars (canonRecord (canonRecord parsed)) := by
      intro s hs
      apply canonChars_eq_some
      rw [coerceScheme_https_fix]
      unfold parseUrlChars
      rw [parseScheme_https]
      exact hs
    have hqq : canonRecord (canonRecord parsed) = canonRecord parsed := by
      apply UrlParts.ext
      · rfl
      · exact jsToLower_idem _
      · by_cases hA : parsed.port.map digitsToNat = some 443 <;>
          simp [canonRecord, hA]
      · exact h parsed hp
      · rfl
      · rfl
    rw [h1, hser, hfix _ (parseRest_canon _ hwf), hqq]
    exact hser
  | none =>
    have h1 := canonChars_eq_none u hp
    rcases coerceScheme_shape u with ⟨r, hr⟩ | ⟨r, hr⟩
    · rw [hr] at hp h1
      unfold parseUrlChars at hp
      rw [parseScheme_https] at hp
      rw [h1, jsToLower_https_prefix, jsReplaceHttp_https_fix]
      exact canonChars_fallback (jsToLower r) (jsToLower_idem r)
        (parseRest_none_map _ _ r hp)
    · rw [hr] at hp h1
      unfold parseUrlChars at hp
      rw [parseScheme_http] at hp
      rw [h1, jsToLower_http_prefix, jsReplaceHttp_http]
      exact canonChars_fallback (jsToLower r) (jsToLower_idem r)
        (parseRest_none_map _ _ r hp)

/-- C9: `canonicalizeUrl` is idempotent for every input whose parsed path
is stable under a second trailing-slash strip — in particular whenever the
URL does not end in two or more slashes, and for every unparsable input
(which falls back to the lowercase scheme-coerced string). The unqualified
claim is refuted by `canonicalizeUrl_not_idempotent`: only one trailing
slash is stripped per call. -/
theorem canonicalizeUrl_idem (u : String)
    (h : ∀ p, parseUrlChars (coerceScheme u.data) = some p →
      stripTrailingSlash (stripTrailingSlash p.pathname)
        = stripTrailingSlash p.pathname) :
    canonicalizeUrl (canonicalizeUrl u) = canonicalizeUrl u := by
  unfold canonicalizeUrl
  exact congrArg String.mk (canonChars_idem u.data h)

/-- Witness for C9's amended statement: a parsable, non-canonical URL on
which canonicalization is idempotent. -/
theorem canonicalizeUrl_idem_witness :
    canonicalizeUrl (canonicalizeUrl "HTTP://Example.com/a/")
      = canonicalizeUrl "HTTP://Example.com/a/" := by
  apply canonicalizeUrl_idem
  intro p hp
  have hp2 : parseUrlChars (coerceScheme ("HTTP://Example.com/a/" : String).data)
      = some ⟨"https:".data, "HTTP".data, none, "//Example.com/a/".data, [], []⟩ := by
    decide
  rw [hp2] at hp
  injection hp with hp3
  rw [← hp3]
  decide

/-- Counterexample to C9 as stated: a path ending in two slashes loses one
slash per canonicalization pass, so the first and second passes disagree. -/
theorem canonicalizeUrl_not_idempotent :
    canonicalizeUrl (canonicalizeUrl "https://a.com/p//")
      ≠ canonicalizeUrl "https://a.com/p//" := by
  decide

end BentoStack
